import Mathlib

/-!
Shallow embedding of the Wavefront OBJ/MTL loader in `src/include/loaders/obj.h`
(a re-make of tinyobjloader).

Modelling conventions:
* A cursor into a NUL-terminated character buffer (`const char *token`) is a
  suffix of the line's character list.  Reading the character under the cursor
  when the suffix is empty yields `'\x00'`, which models reading the
  terminating NUL (and further NUL padding); the code itself relies on
  `IS_NEW_LINE('\0')` to stop at the terminator.
* `float`/`double` arithmetic is modelled over `ℚ` with exact arithmetic; no
  claim settled here depends on rounding.
* `unsigned char` truncation is modelled by `% 256`.
* Out-of-bounds `std::vector` indexing (undefined behaviour in the source) is
  modelled by `Option`: a function that performs such an access returns `none`.
* `std::map` is modelled by an association list whose `insert` keeps the first
  binding of a key (matching `std::map::insert`, which does not overwrite).
-/

namespace ObjLoader

/-! ## Definitions: the shallow embedding of the loader -/

/-- Character classifier IS_SPACE from the source: space or horizontal tab. -/
def IS_SPACE (c : Char) : Bool := c = ' ' || c = '\t'

/-- Character classifier IS_DIGIT from the source: an ASCII decimal digit. -/
def IS_DIGIT (c : Char) : Bool := '0' ≤ c && c ≤ '9'

/-- Character classifier IS_NEW_LINE from the source: CR, LF or NUL. -/
def IS_NEW_LINE (c : Char) : Bool := c = '\r' || c = '\n' || c = '\x00'

/-- Reading the character under a cursor; an exhausted cursor reads the
terminating NUL. -/
def peekc : List Char → Char
  | [] => '\x00'
  | c :: _ => c

/-- Reading the character one past the cursor (token[1] in the source). -/
def peekc2 : List Char → Char
  | _ :: c :: _ => c
  | _ => '\x00'

/-- Numeric value of an ASCII digit character. -/
def digitVal (c : Char) : Nat := c.toNat - '0'.toNat

/-- fixIndex from the source: normalize a raw OBJ file index against the
running attribute element count n (1-based positive indices become 0-based,
0 is clamped to 0, negative indices are relative to n). -/
def fixIndex (idx n : Int) : Int :=
  if idx > 0 then idx - 1
  else if idx = 0 then 0
  else n + idx

/-- Separator set of `strcspn(token, " \t\r")` used by the token scanners. -/
def isSepSTR (c : Char) : Bool := c = ' ' || c = '\t' || c = '\r'

/-- Separator set of `strcspn(token, "/ \t\r")` used by the triple parsers. -/
def isSepSlash (c : Char) : Bool := c = '/' || c = ' ' || c = '\t' || c = '\r'

/-- Integer-digit scanning loop of tryParseDouble: accumulates
`mantissa = mantissa*10 + digit` and counts consumed digits. -/
def scanIntDigits : ℚ → Nat → List Char → ℚ × Nat × List Char
  | m, read, [] => (m, read, [])
  | m, read, c :: rest =>
    if IS_DIGIT c then scanIntDigits (m * 10 + digitVal c) (read + 1) rest
    else (m, read, c :: rest)

/-- Fractional-digit scanning loop of tryParseDouble: accumulates
`mantissa += digit * 10^(-read)` (the source's pow_lut / pow(10,-read)). -/
def scanFracDigits : ℚ → Nat → List Char → ℚ × List Char
  | m, _read, [] => (m, [])
  | m, read, c :: rest =>
    if IS_DIGIT c then
      scanFracDigits (m + (digitVal c : ℚ) * ((10 : ℚ) ^ read)⁻¹) (read + 1) rest
    else (m, c :: rest)

/-- Exponent-digit scanning loop of tryParseDouble. -/
def scanExpDigits : Int → Nat → List Char → Int × Nat × List Char
  | e, read, [] => (e, read, [])
  | e, read, c :: rest =>
    if IS_DIGIT c then scanExpDigits (e * 10 + (digitVal c : Int)) (read + 1) rest
    else (e, read, c :: rest)

/-- Final assembly step of tryParseDouble:
`sign * ldexp(mantissa * 5^exp, exp) = sign * mantissa * 10^exp`
(over ℚ, exactly). -/
def assembleDouble (sign : Char) (mantissa : ℚ) (exponent : Int) : ℚ :=
  (if sign = '+' then (1 : ℚ) else -1) *
    (if exponent ≠ 0 then mantissa * (10 : ℚ) ^ exponent else mantissa)

/-- tryParseDouble from the source, on the character range `[s, s_end)`
represented as a list.  Returns `none` exactly on the source's `fail`
paths (in which case `*result` is not written). -/
def tryParseDouble (s : List Char) : Option ℚ :=
  match s with
  | [] => none
  | c :: rest =>
    -- leading sign or digit
    let (sign, curr) :=
      if c = '+' || c = '-' then (c, rest)
      else (('+' : Char), c :: rest)
    if ¬(c = '+' || c = '-') && ¬(IS_DIGIT c) then none
    else
      let (mantissa, read, curr) := scanIntDigits 0 0 curr
      if read = 0 then none
      else
        match curr with
        | [] => some (assembleDouble sign mantissa 0)
        | d :: curr1 =>
          -- fraction part, then optional exponent
          let (mantissa, curr2) :=
            if d = '.' then scanFracDigits mantissa 1 curr1
            else (mantissa, d :: curr1)
          if d ≠ '.' && d ≠ 'e' && d ≠ 'E' then
            some (assembleDouble sign mantissa 0)
          else
            match curr2 with
            | [] => some (assembleDouble sign mantissa 0)
            | e :: curr3 =>
              if e = 'e' || e = 'E' then
                let (exp_sign, curr4) :=
                  if peekc curr3 = '+' || peekc curr3 = '-' then
                    (peekc curr3, curr3.tail)
                  else (('+' : Char), curr3)
                if ¬(peekc curr3 = '+' || peekc curr3 = '-') &&
                    ¬(IS_DIGIT (peekc curr3)) then none
                else
                  let (exponent, eread, _) := scanExpDigits 0 0 curr4
                  let exponent := exponent * (if exp_sign = '+' then 1 else -1)
                  if eread = 0 then none
                  else some (assembleDouble sign mantissa exponent)
              else
                some (assembleDouble sign mantissa 0)

/-- parseReal from the source: skip leading spaces/tabs, scan the token up to
the next space/tab/CR, try to parse it (keeping the default on failure) and
advance the cursor to that separator. -/
def parseReal (token : List Char) (defaultValue : ℚ := 0) : ℚ × List Char :=
  let t1 := token.dropWhile IS_SPACE
  let tok := t1.takeWhile (fun c => ¬ isSepSTR c)
  let rest := t1.dropWhile (fun c => ¬ isSepSTR c)
  ((tryParseDouble tok).getD defaultValue, rest)

/-- parseReal2 from the source. -/
def parseReal2 (token : List Char) (dx dy : ℚ := 0) : (ℚ × ℚ) × List Char :=
  let (x, t1) := parseReal token dx
  let (y, t2) := parseReal t1 dy
  ((x, y), t2)

/-- parseReal3 from the source. -/
def parseReal3 (token : List Char) (dx dy dz : ℚ := 0) : (ℚ × ℚ × ℚ) × List Char :=
  let (x, t1) := parseReal token dx
  let (y, t2) := parseReal t1 dy
  let (z, t3) := parseReal t2 dz
  ((x, y, z), t3)

/-- Character set of C `isspace`, used by `atoi`. -/
def isCWhitespace (c : Char) : Bool :=
  c = ' ' || c = '\t' || c = '\n' || c = '\x0b' || c = '\x0c' || c = '\r'

/-- Digit-accumulation loop of C `atoi`. -/
def atoiDigits : Int → List Char → Int
  | acc, [] => acc
  | acc, c :: rest =>
    if IS_DIGIT c then atoiDigits (acc * 10 + (digitVal c : Int)) rest else acc

/-- C `atoi`: skip whitespace, optional sign, then a digit run (0 when there
are no digits).  Overflow is irrelevant to the settled claims, so the value
is an unbounded `Int`. -/
def atoi (s : List Char) : Int :=
  match s.dropWhile isCWhitespace with
  | '-' :: rest => - atoiDigits 0 rest
  | '+' :: rest => atoiDigits 0 rest
  | t => atoiDigits 0 t

/-- parseInt from the source. -/
def parseInt (token : List Char) : Int × List Char :=
  let t1 := token.dropWhile IS_SPACE
  (atoi t1, t1.dropWhile (fun c => ¬ isSepSTR c))

/-- parseString from the source: skip leading spaces/tabs and take the run up
to the next space/tab/CR. -/
def parseString (token : List Char) : String × List Char :=
  let t1 := token.dropWhile IS_SPACE
  (String.mk (t1.takeWhile (fun c => ¬ isSepSTR c)),
    t1.dropWhile (fun c => ¬ isSepSTR c))

/-- vertex_index from the source: the (v, vt, vn) raw triple of a face
corner; -1 is the "absent" sentinel. -/
structure VertexIndex where
  v_idx : Int
  vt_idx : Int
  vn_idx : Int
deriving Repr, DecidableEq

/-- parseTriple from the source: parse one `v`, `v/vt`, `v//vn` or `v/vt/vn`
corner, normalizing each raw index with fixIndex against the running counts. -/
def parseTriple (token : List Char) (vsize vnsize vtsize : Int) :
    VertexIndex × List Char :=
  let v := fixIndex (atoi token) vsize
  let t1 := token.dropWhile (fun c => ¬ isSepSlash c)
  if peekc t1 ≠ '/' then ({ v_idx := v, vt_idx := -1, vn_idx := -1 }, t1)
  else
    let t2 := t1.tail
    if peekc t2 = '/' then
      let t3 := t2.tail
      let vn := fixIndex (atoi t3) vnsize
      ({ v_idx := v, vt_idx := -1, vn_idx := vn },
        t3.dropWhile (fun c => ¬ isSepSlash c))
    else
      let vt := fixIndex (atoi t2) vtsize
      let t3 := t2.dropWhile (fun c => ¬ isSepSlash c)
      if peekc t3 ≠ '/' then ({ v_idx := v, vt_idx := vt, vn_idx := -1 }, t3)
      else
        let t4 := t3.tail
        let vn := fixIndex (atoi t4) vnsize
        ({ v_idx := v, vt_idx := vt, vn_idx := vn },
          t4.dropWhile (fun c => ¬ isSepSlash c))

/-- Face-corner scanning loop of the `f` handler with a structural fuel
counter: parse whitespace-separated triples until end of line, each followed
by a `strspn(" \t\r")` skip.  Each iteration strictly shrinks the cursor
(`faceLoop_progress`), so by `parseFaceVertsF_fuel_irrel` the fuel used by
`parseFaceVerts` never runs out and the encoding computes the source loop. -/
def parseFaceVertsF : Nat → Int → Int → Int → List Char → List VertexIndex →
    List VertexIndex
  | 0, _, _, _, _, acc => acc
  | fuel + 1, vs, vns, vts, token, acc =>
    if IS_NEW_LINE (peekc token) then acc
    else
      let r := parseTriple token vs vns vts
      parseFaceVertsF fuel vs vns vts (r.2.dropWhile isSepSTR) (acc ++ [r.1])

/-- Face-corner scanning of one `f` line. -/
def parseFaceVerts (vsize vnsize vtsize : Int) (token : List Char) :
    List VertexIndex :=
  parseFaceVertsF (token.length + 1) vsize vnsize vtsize token []

/-! ### Mesh data model and the face-group flush -/

/-- tag_t from the source. -/
structure Tag where
  name : String
  intValues : List Int
  floatValues : List ℚ
  stringValues : List String
deriving Repr, DecidableEq

/-- index_t from the source: one emitted index triple. -/
structure IndexT where
  vertex_index : Int
  normal_index : Int
  texcoord_index : Int
deriving Repr, DecidableEq

/-- mesh_t from the source. -/
structure Mesh where
  indices : List IndexT
  num_face_vertices : List Nat
  material_ids : List Int
  tags : List Tag
deriving Repr, DecidableEq

/-- shape_t from the source. -/
structure Shape where
  name : String
  mesh : Mesh
deriving Repr, DecidableEq

/-- The default-constructed shape_t (shape = shape_t() in the source). -/
def emptyShape : Shape := ⟨"", ⟨[], [], [], []⟩⟩

/-- Assembly idx.vertex_index = i.v_idx; idx.normal_index = i.vn_idx;
idx.texcoord_index = i.vt_idx from the source's flush. -/
def toIndexT (i : VertexIndex) : IndexT := ⟨i.v_idx, i.vn_idx, i.vt_idx⟩

/-- One triangle emission of the triangulating flush: three indices, one
face-vertex count 3, one material id. -/
def pushTriangle (m : Mesh) (matId : Int) (i0 i1 i2 : VertexIndex) : Mesh :=
  { m with
    indices := m.indices ++ [toIndexT i0, toIndexT i1, toIndexT i2],
    num_face_vertices := m.num_face_vertices ++ [3],
    material_ids := m.material_ids ++ [matId] }

/-- The fan loop `for (k = 2; k < npolys; k++)` of the source's flush: the
running i2 is the previous corner (`i1 = i2; i2 = face[k]`), and the corners
still to visit, `face[k..]`, are carried as a list suffix. -/
def fanLoop (matId : Int) (i0 : VertexIndex) :
    VertexIndex → List VertexIndex → Mesh → Mesh
  | _, [], m => m
  | i2, x :: rest, m => fanLoop matId i0 x rest (pushTriangle m matId i0 i2 x)

/-- Per-face body of exportFaceGroupToShape.  The source reads face[0] and
face[1] before inspecting the face's size; an out-of-bounds read yields
`none`.  In the non-triangulating branch the face-vertex count is an
`unsigned char`, hence the `% 256`. -/
def exportFace (tri : Bool) (matId : Int) (m : Mesh) (face : List VertexIndex) :
    Option Mesh := do
  let i0 ← face.get? 0
  let i2 ← face.get? 1
  if tri then
    pure (fanLoop matId i0 i2 (face.drop 2) m)
  else
    pure { m with
      indices := m.indices ++ face.map toIndexT,
      num_face_vertices := m.num_face_vertices ++ [face.length % 256],
      material_ids := m.material_ids ++ [matId] }

/-- The `for (i = 0; i < faceGroup.size(); i++)` loop of the flush. -/
def exportLoop (tri : Bool) (matId : Int) :
    List (List VertexIndex) → Mesh → Option Mesh
  | [], m => some m
  | f :: fs, m => do exportLoop tri matId fs (← exportFace tri matId m f)

/-- exportFaceGroupToShape from the source: flush the pending face group into
a shape, returning the updated shape and the source's boolean result (false
exactly when the group was empty). -/
def exportFaceGroupToShape (sh : Shape) (faceGroup : List (List VertexIndex))
    (tags : List Tag) (matId : Int) (name : String) (tri : Bool) :
    Option (Shape × Bool) :=
  if faceGroup = [] then some (sh, false)
  else do
    let m ← exportLoop tri matId faceGroup sh.mesh
    some ({ name := name, mesh := { m with tags := tags } }, true)

/-! ### Materials -/

/-- material_t from the source, restricted to the fields the modelled
directives write (texture_option_t records are not tracked: no settled claim
mentions them, and their parsing only moves the cursor of the texture line). -/
structure Material where
  name : String
  ambient : ℚ × ℚ × ℚ
  diffuse : ℚ × ℚ × ℚ
  specular : ℚ × ℚ × ℚ
  transmittance : ℚ × ℚ × ℚ
  emission : ℚ × ℚ × ℚ
  shininess : ℚ
  ior : ℚ
  dissolve : ℚ
  illum : Int
  ambient_texname : String
  diffuse_texname : String
  specular_texname : String
  specular_highlight_texname : String
  bump_texname : String
  displacement_texname : String
  alpha_texname : String
  reflection_texname : String
  roughness : ℚ
  metallic : ℚ
  sheen : ℚ
  clearcoat_thickness : ℚ
  clearcoat_roughness : ℚ
  anisotropy : ℚ
  anisotropy_rotation : ℚ
  roughness_texname : String
  metallic_texname : String
  sheen_texname : String
  emissive_texname : String
  normal_texname : String
  unknown_parameter : List (String × String)
deriving Repr, DecidableEq

/-- InitMaterial from the source. -/
def InitMaterial : Material where
  name := ""
  ambient := (0, 0, 0)
  diffuse := (0, 0, 0)
  specular := (0, 0, 0)
  transmittance := (0, 0, 0)
  emission := (0, 0, 0)
  shininess := 1
  ior := 1
  dissolve := 1
  illum := 0
  ambient_texname := ""
  diffuse_texname := ""
  specular_texname := ""
  specular_highlight_texname := ""
  bump_texname := ""
  displacement_texname := ""
  alpha_texname := ""
  reflection_texname := ""
  roughness := 0
  metallic := 0
  sheen := 0
  clearcoat_thickness := 0
  clearcoat_roughness := 0
  anisotropy := 0
  anisotropy_rotation := 0
  roughness_texname := ""
  metallic_texname := ""
  sheen_texname := ""
  emissive_texname := ""
  normal_texname := ""
  unknown_parameter := []

/-- std::map<std::string,int> insert: keeps the existing binding when the key
is already present. -/
def mapInsert (m : List (String × Int)) (k : String) (v : Int) :
    List (String × Int) :=
  if (m.lookup k).isSome then m else m ++ [(k, v)]

/-- MaterialReader::operator() as the OBJ loader sees it: given the matId
argument and the current materials list and name table, produce the success
flag, the updated materials and table, and appended error text. -/
def MatReader : Type :=
  String → List Material → List (String × Int) →
    Bool × List Material × List (String × Int) × String

/-! ### The OBJ geometry parser -/

/-- Reading token[i] through the NUL-padding convention. -/
def charAt (l : List Char) (i : Nat) : Char := peekc (l.drop i)

/-- strncmp(token, s, s.length) == 0 for a keyword s. -/
def strncmpEq (l : List Char) (s : String) : Bool := s.toList.isPrefixOf l

/-- tag_sizes from the source. -/
structure TagSizes where
  num_ints : Int
  num_reals : Int
  num_strings : Int
deriving Repr, DecidableEq

/-- parseTagTriple from the source. -/
def parseTagTriple (token : List Char) : TagSizes × List Char :=
  let ni := atoi token
  let t1 := token.dropWhile (fun c => ¬ isSepSlash c)
  if peekc t1 ≠ '/' then (⟨ni, 0, 0⟩, t1)
  else
    let t2 := t1.tail
    let nr := atoi t2
    let t3 := t2.dropWhile (fun c => ¬ isSepSlash c)
    if peekc t3 ≠ '/' then (⟨ni, nr, 0⟩, t3)
    else
      let t4 := t3.tail
      let ns := atoi t4
      (⟨ni, nr, ns⟩, (t4.dropWhile (fun c => ¬ isSepSlash c)).drop 1)

/-- The intValues loop of the `t` handler (`atoi` then skip past the next
"/ \t\r" separator).  The `static_cast<size_t>` of the count is modelled by
`Int.toNat`; in every run reachable in this model the counts are 0 because
the `t` handler has already consumed the whole line into the tag name. -/
def readTagInts : Nat → List Char → List Int × List Char
  | 0, t => ([], t)
  | n + 1, t =>
    let i := atoi t
    let t1 := (t.dropWhile (fun c => ¬ isSepSlash c)).drop 1
    let (rest, t2) := readTagInts n t1
    (i :: rest, t2)

/-- The floatValues loop of the `t` handler. -/
def readTagReals : Nat → List Char → List ℚ × List Char
  | 0, t => ([], t)
  | n + 1, t =>
    let (x, t1) := parseReal t
    let t2 := (t1.dropWhile (fun c => ¬ isSepSlash c)).drop 1
    let (rest, t3) := readTagReals n t2
    (x :: rest, t3)

/-- The stringValues loop of the `t` handler (`sstr << token` takes the whole
remainder; the cursor then jumps past it). -/
def readTagStrings : Nat → List Char → List String × List Char
  | 0, t => ([], t)
  | n + 1, t =>
    let s := String.mk t
    let t1 := t.drop (s.length + 1)
    let (rest, t2) := readTagStrings n t1
    (s :: rest, t2)

/-- SplitString from the source (std::getline with a delimiter), with a
structural fuel counter; each iteration consumes at least one character, so
the fuel chosen by `SplitString` is never exhausted
(`SplitStringF_fuel_irrel`). -/
def SplitStringF : Nat → List Char → Char → List String
  | 0, _, _ => []
  | _ + 1, [], _ => []
  | fuel + 1, c :: cs, delim =>
    let item := (c :: cs).takeWhile (fun x => x ≠ delim)
    match (c :: cs).dropWhile (fun x => x ≠ delim) with
    | [] => [String.mk item]
    | _ :: rest2 => String.mk item :: SplitStringF fuel rest2 delim

/-- SplitString from the source. -/
def SplitString (s : List Char) (delim : Char) : List String :=
  SplitStringF (s.length + 1) s delim

/-- The name-scanning loop of the `g` handler (parseString until end of
line; the first scanned name is the keyword `g` itself), with a structural
fuel counter; `gNamesLoop_progress` and `parseGNamesF_fuel_irrel` show the
fuel chosen by `parseGNames` is never exhausted. -/
def parseGNamesF : Nat → List Char → List String → List String
  | 0, _, acc => acc
  | fuel + 1, token, acc =>
    if IS_NEW_LINE (peekc token) then acc
    else
      let r := parseString token
      parseGNamesF fuel (r.2.dropWhile isSepSTR) (acc ++ [r.1])

/-- The name list scanned by a `g` line. -/
def parseGNames (token : List Char) : List String :=
  parseGNamesF (token.length + 1) token []

/-- attrib_t from the source. -/
structure Attrib where
  vertices : List ℚ
  normals : List ℚ
  texcoords : List ℚ
deriving Repr, DecidableEq

/-- The local accumulators of the stream-level LoadObj. -/
structure ObjState where
  v : List ℚ
  vn : List ℚ
  vt : List ℚ
  tags : List Tag
  faceGroup : List (List VertexIndex)
  name : String
  material_map : List (String × Int)
  material : Int
  shape : Shape
  shapes : List Shape
  materials : List Material
  err : String
deriving Repr, DecidableEq

/-- The filename loop of the `mtllib` handler: try the reader on each
filename in order, accumulating non-empty error text, stopping at the first
success. -/
def mtllibTryAll (reader : MatReader) :
    List String → List Material → List (String × Int) → String →
      Bool × List Material × List (String × Int) × String
  | [], mats, mp, err => (false, mats, mp, err)
  | fn :: rest, mats, mp, err =>
    let r := reader fn mats mp
    let err2 := if r.2.2.2 = "" then err else err ++ r.2.2.2
    if r.1 then (true, r.2.1, r.2.2.1, err2)
    else mtllibTryAll reader rest r.2.1 r.2.2.1 err2

/-- The `v` handler of LoadObj. -/
def handleV (st : ObjState) (token : List Char) : ObjState :=
  let r := parseReal3 (token.drop 2)
  { st with v := st.v ++ [r.1.1, r.1.2.1, r.1.2.2] }

/-- The `vn` handler of LoadObj. -/
def handleVn (st : ObjState) (token : List Char) : ObjState :=
  let r := parseReal3 (token.drop 3)
  { st with vn := st.vn ++ [r.1.1, r.1.2.1, r.1.2.2] }

/-- The `vt` handler of LoadObj. -/
def handleVt (st : ObjState) (token : List Char) : ObjState :=
  let r := parseReal2 (token.drop 3)
  { st with vt := st.vt ++ [r.1.1, r.1.2] }

/-- The `f` handler of LoadObj: scan the corner triples against the running
counts and append one face to the pending face group. -/
def handleF (st : ObjState) (token : List Char) : ObjState :=
  let t1 := (token.drop 2).dropWhile IS_SPACE
  let face := parseFaceVerts ((st.v.length / 3 : Nat) : Int)
    ((st.vn.length / 3 : Nat) : Int) ((st.vt.length / 2 : Nat) : Int) t1
  { st with faceGroup := st.faceGroup ++ [face] }

/-- The `usemtl` handler of LoadObj: on a material-id change, flush the
pending face group into the current shape (without emitting the shape) and
start a fresh group under the new id. -/
def handleUsemtl (triangulate : Bool) (st : ObjState) (token : List Char) :
    Option ObjState :=
  let namebuf := String.mk (token.drop 7)
  let newMaterialId :=
    match st.material_map.lookup namebuf with
    | some i => i
    | none => -1
  if newMaterialId ≠ st.material then
    match exportFaceGroupToShape st.shape st.faceGroup st.tags st.material
        st.name triangulate with
    | none => none
    | some (sh, _) =>
      some { st with shape := sh, faceGroup := [], material := newMaterialId }
  else some st

/-- The `mtllib` handler of LoadObj. -/
def handleMtllib (readMatFn : Option MatReader) (st : ObjState)
    (token : List Char) : ObjState :=
  match readMatFn with
  | none => st
  | some reader =>
    let filenames := SplitString (token.drop 7) ' '
    if filenames.isEmpty then
      let msg := "WARN: Looks like empty filename for mtllib. Use default material. \n"
      { st with err := st.err ++ msg }
    else
      let r := mtllibTryAll reader filenames st.materials st.material_map st.err
      if r.1 then
        { st with materials := r.2.1, material_map := r.2.2.1, err := r.2.2.2 }
      else
        let msg := "WARN: Failed to load material file(s). Use default material.\n"
        { st with materials := r.2.1, material_map := r.2.2.1, err := r.2.2.2 ++ msg }

/-- The `g` handler of LoadObj: flush the pending face group, emit the shape
when the flush returned true, reset the shape, and take the new name from
the second scanned token.  (The pending tag list is not touched.) -/
def handleG (triangulate : Bool) (st : ObjState) (token : List Char) :
    Option ObjState :=
  match exportFaceGroupToShape st.shape st.faceGroup st.tags st.material
      st.name triangulate with
  | none => none
  | some (sh, ret) =>
    let names := parseGNames token
    some { st with
      shapes := if ret then st.shapes ++ [sh] else st.shapes,
      shape := emptyShape,
      faceGroup := [],
      name := if names.length > 1 then names.getD 1 "" else "" }

/-- The `o` handler of LoadObj. -/
def handleO (triangulate : Bool) (st : ObjState) (token : List Char) :
    Option ObjState :=
  match exportFaceGroupToShape st.shape st.faceGroup st.tags st.material
      st.name triangulate with
  | none => none
  | some (sh, ret) =>
    some { st with
      shapes := if ret then st.shapes ++ [sh] else st.shapes,
      shape := emptyShape,
      faceGroup := [],
      name := String.mk (token.drop 2) }

/-- The `t` handler of LoadObj.  `ss << token` swallows the whole remainder
into the tag name, after which the cursor stands one past the terminating
NUL (modelled as exhausted), so the three count-driven loops read counts of
0 from NUL padding. -/
def handleT (st : ObjState) (token : List Char) : ObjState :=
  let tname := String.mk (token.drop 2)
  let t1 := (token.drop 2).drop (tname.length + 1)
  let r := parseTagTriple t1
  let ri := readTagInts r.1.num_ints.toNat r.2
  let rr := readTagReals r.1.num_reals.toNat ri.2
  let rs := readTagStrings r.1.num_strings.toNat rr.2
  { st with tags := st.tags ++ [⟨tname, ri.1, rr.1, rs.1⟩] }

/-- One iteration of the stream-level LoadObj line loop, dispatching on the
directive keyword exactly in source order.  `none` models the source
performing an out-of-bounds vector access during a face-group flush. -/
def processObjLine (readMatFn : Option MatReader) (triangulate : Bool)
    (st : ObjState) (line : String) : Option ObjState :=
  let lb := line.toList
  if lb.isEmpty then some st
  else
    let token := lb.dropWhile IS_SPACE
    if peekc token = '\x00' then some st
    else if peekc token = '#' then some st
    else if charAt token 0 = 'v' && IS_SPACE (charAt token 1) then
      some (handleV st token)
    else if charAt token 0 = 'v' && charAt token 1 = 'n' &&
        IS_SPACE (charAt token 2) then
      some (handleVn st token)
    else if charAt token 0 = 'v' && charAt token 1 = 't' &&
        IS_SPACE (charAt token 2) then
      some (handleVt st token)
    else if charAt token 0 = 'f' && IS_SPACE (charAt token 1) then
      some (handleF st token)
    else if strncmpEq token "usemtl" && IS_SPACE (charAt token 6) then
      handleUsemtl triangulate st token
    else if strncmpEq token "mtllib" && IS_SPACE (charAt token 6) then
      some (handleMtllib readMatFn st token)
    else if charAt token 0 = 'g' && IS_SPACE (charAt token 1) then
      handleG triangulate st token
    else if charAt token 0 = 'o' && IS_SPACE (charAt token 1) then
      handleO triangulate st token
    else if charAt token 0 = 't' && IS_SPACE (charAt token 1) then
      some (handleT st token)
    else some st

/-- The end-of-stream epilogue of LoadObj: final flush, conditional append of
the final pending shape, and the attrib swap. -/
def finishObj (triangulate : Bool) (st : ObjState) : Option ObjState :=
  match exportFaceGroupToShape st.shape st.faceGroup st.tags st.material
      st.name triangulate with
  | none => none
  | some (sh, ret) =>
    some { st with
      shapes := if ret || !sh.mesh.indices.isEmpty then st.shapes ++ [sh]
        else st.shapes,
      faceGroup := [] }

/-- Initial accumulator state of the stream-level LoadObj, over the
caller-supplied materials list (the stream overload does not clear it). -/
def initObjState (materials0 : List Material) : ObjState where
  v := []
  vn := []
  vt := []
  tags := []
  faceGroup := []
  name := ""
  material_map := []
  material := -1
  shape := emptyShape
  shapes := []
  materials := materials0
  err := ""

/-- The line loop of the stream-level LoadObj. -/
def processObjLines (readMatFn : Option MatReader) (triangulate : Bool) :
    ObjState → List String → Option ObjState
  | st, [] => some st
  | st, l :: rest => do
    processObjLines readMatFn triangulate
      (← processObjLine readMatFn triangulate st l) rest

/-- Result bundle of the stream-level LoadObj (out-parameters plus the
returned bool, which is `true` on every completing run). -/
structure LoadResult where
  attrib : Attrib
  shapes : List Shape
  materials : List Material
  err : String
  ret : Bool
deriving Repr, DecidableEq

/-- The stream-level LoadObj from the source, on an input already split into
lines (safeGetline's splitting).  `none` models a run that performs an
out-of-bounds access. -/
def LoadObj (readMatFn : Option MatReader) (triangulate : Bool)
    (materials0 : List Material) (lines : List String) : Option LoadResult := do
  let st ← processObjLines readMatFn triangulate (initObjState materials0) lines
  let st ← finishObj triangulate st
  some { attrib := ⟨st.v, st.vn, st.vt⟩, shapes := st.shapes,
         materials := st.materials, err := st.err, ret := true }

/-- Sample tag and pre-`g` state for the C4 witness. -/
def sampleTag : Tag := ⟨"x", [1], [], []⟩

/-- A state holding one pending tag and one pending two-corner face. -/
def sampleStateG : ObjState :=
  { initObjState [] with
    tags := [sampleTag]
    faceGroup := [[⟨0, -1, -1⟩, ⟨1, -1, -1⟩]] }

/-- The state after processing `g a` from `sampleStateG`. -/
def sampleStateGOut : ObjState :=
  { initObjState [] with
    tags := [sampleTag]
    name := "a"
    shapes := [⟨"", ⟨[], [], [], [sampleTag]⟩⟩] }

/-- The state after processing `o b` from `sampleStateG`. -/
def sampleStateOOut : ObjState :=
  { initObjState [] with
    tags := [sampleTag]
    name := "b"
    shapes := [⟨"", ⟨[], [], [], [sampleTag]⟩⟩] }

/-- A state with an empty pending face group whose current shape already
holds one index, for the C5 witness. -/
def sampleStateEnd : ObjState :=
  { initObjState [] with shape := ⟨"s", ⟨[⟨0, -1, -1⟩], [1], [-1], []⟩⟩ }

/-- The state after the end-of-stream flush of `sampleStateEnd`. -/
def sampleStateEndOut : ObjState :=
  { initObjState [] with
    shape := ⟨"s", ⟨[⟨0, -1, -1⟩], [1], [-1], []⟩⟩
    shapes := [⟨"s", ⟨[⟨0, -1, -1⟩], [1], [-1], []⟩⟩] }

/-! ### C2: triangulation fan of the face-group flush -/

/-- The index stream the fan loop appends, as a recursive specification over
the remaining-corner suffix. -/
def fanIndices (i0 : VertexIndex) : VertexIndex → List VertexIndex → List IndexT
  | _, [] => []
  | i2, x :: rest => [toIndexT i0, toIndexT i2, toIndexT x] ++ fanIndices i0 x rest

/-! ### C6: mtllib resolution -/

/-- MaterialFileReader::operator() specialized to its file-open-failure path:
report the not-found warning, fail, and leave the materials list and name
table untouched.  The OBJ loader sees exactly this behaviour when no
referenced material file can be opened. -/
def failingFileReader : MatReader := fun matId mats mp =>
  (false, mats, mp, "WARN: Material file [ " ++ matId ++ " ] not found.\n")

/-- A reader succeeding only on `ok.mtl`, used to exercise the first-success
stop of the mtllib loop. -/
def failFirstReader : MatReader := fun fn mats mp =>
  if fn = "ok.mtl" then (true, mats, mp, "") else (false, mats, mp, "e")

/-! ### The MTL material parser -/

/-- The `substr(0, find_last_not_of(" \x5ct") + 1)` trim of LoadMtl. -/
def trimTrailing (l : List Char) : List Char :=
  (l.reverse.dropWhile (fun c => c = ' ' || c = '\t')).reverse

/-- Erase the last character when it equals c (the trailing newline and
carriage-return strips of LoadMtl). -/
def chompLast (l : List Char) (c : Char) : List Char :=
  if l.getLast? = some c then l.dropLast else l

/-- Cursor effect common to parseReal, parseOnOff and parseTextureType:
`strspn(" \x5ct")` then `strcspn(" \x5ct\x5cr")`. -/
def skipOneToken (t : List Char) : List Char :=
  (t.dropWhile IS_SPACE).dropWhile (fun c => ¬ isSepSTR c)

/-- The dash-option scanning loop of ParseTextureNameAndOption, carrying the
found flag and the scanned texture name; option values only move the cursor
and are not recorded (no settled claim concerns them).  Every executed
iteration consumes at least one character, so the fuel passed by
`ParseTextureNameAndOption` is never exhausted. -/
def texNameLoopF : Nat → List Char → Bool → String → Bool × String
  | 0, _, found, nm => (found, nm)
  | fuel + 1, token, found, nm =>
    if IS_NEW_LINE (peekc token) then (found, nm)
    else
      let t := token.dropWhile IS_SPACE
      if strncmpEq t "-blendu" && IS_SPACE (charAt t 7) then
        texNameLoopF fuel (skipOneToken (t.drop 8)) found nm
      else if strncmpEq t "-blendv" && IS_SPACE (charAt t 7) then
        texNameLoopF fuel (skipOneToken (t.drop 8)) found nm
      else if strncmpEq t "-clamp" && IS_SPACE (charAt t 6) then
        texNameLoopF fuel (skipOneToken (t.drop 7)) found nm
      else if strncmpEq t "-boost" && IS_SPACE (charAt t 6) then
        texNameLoopF fuel (skipOneToken (t.drop 7)) found nm
      else if strncmpEq t "-bm" && IS_SPACE (charAt t 3) then
        texNameLoopF fuel (skipOneToken (t.drop 4)) found nm
      else if strncmpEq t "-o" && IS_SPACE (charAt t 2) then
        texNameLoopF fuel
          (skipOneToken (skipOneToken (skipOneToken (t.drop 3)))) found nm
      else if strncmpEq t "-s" && IS_SPACE (charAt t 2) then
        texNameLoopF fuel
          (skipOneToken (skipOneToken (skipOneToken (t.drop 3)))) found nm
      else if strncmpEq t "-t" && IS_SPACE (charAt t 2) then
        texNameLoopF fuel
          (skipOneToken (skipOneToken (skipOneToken (t.drop 3)))) found nm
      else if strncmpEq t "-type" && IS_SPACE (charAt t 5) then
        texNameLoopF fuel (skipOneToken (t.drop 5)) found nm
      else if strncmpEq t "-imfchan" && IS_SPACE (charAt t 8) then
        texNameLoopF fuel (skipOneToken (t.drop 9)) found nm
      else if strncmpEq t "-mm" && IS_SPACE (charAt t 3) then
        texNameLoopF fuel (skipOneToken (skipOneToken (t.drop 4))) found nm
      else
        let nameRun := t.takeWhile (fun c => ¬ isSepSTR c)
        let t2 := (t.drop nameRun.length).dropWhile IS_SPACE
        texNameLoopF fuel t2 true (String.mk nameRun)

/-- ParseTextureNameAndOption from the source, restricted to the found flag
and the texture name it extracts. -/
def ParseTextureNameAndOption (linebuf : List Char) : Bool × String :=
  texNameLoopF (linebuf.length + 1) linebuf false ""

/-- The caller-side effect of a texture directive: overwrite the texname only
when a name was found. -/
def applyTexname (r : Bool × String) (old : String) : String :=
  if r.1 then r.2 else old

/-- std::map<std::string,std::string> insert (keeps the first binding). -/
def mapInsertSS (m : List (String × String)) (k v : String) :
    List (String × String) :=
  if (m.lookup k).isSome then m else m ++ [(k, v)]

/-- The conflict warning of the `d`/`Tr` directives. -/
def dTrWarnText (nm : String) : String :=
  "WARN: Both `d` and `Tr` parameters defined for \"" ++ nm ++
    "\". Use the value of `d` for dissolve.\n"

/-- The running state of LoadMtl's line loop. -/
structure MtlState where
  material : Material
  has_d : Bool
  has_tr : Bool
  material_map : List (String × Int)
  materials : List Material
  warn : String
deriving Repr, DecidableEq

/-- The non-newmtl directives of LoadMtl, in source order; none of them
touches the committed materials list or the name table. -/
def mtlRest (st : MtlState) (token : List Char) : MtlState :=
  if charAt token 0 = 'K' && charAt token 1 = 'a' && IS_SPACE (charAt token 2) then
    let r := parseReal3 (token.drop 2)
    { st with material := { st.material with ambient := r.1 } }
  else if charAt token 0 = 'K' && charAt token 1 = 'd' && IS_SPACE (charAt token 2) then
    let r := parseReal3 (token.drop 2)
    { st with material := { st.material with diffuse := r.1 } }
  else if charAt token 0 = 'K' && charAt token 1 = 's' && IS_SPACE (charAt token 2) then
    let r := parseReal3 (token.drop 2)
    { st with material := { st.material with specular := r.1 } }
  else if (charAt token 0 = 'K' && charAt token 1 = 't' && IS_SPACE (charAt token 2)) ||
      (charAt token 0 = 'T' && charAt token 1 = 'f' && IS_SPACE (charAt token 2)) then
    let r := parseReal3 (token.drop 2)
    { st with material := { st.material with transmittance := r.1 } }
  else if charAt token 0 = 'N' && charAt token 1 = 'i' && IS_SPACE (charAt token 2) then
    { st with material := { st.material with ior := (parseReal (token.drop 2)).1 } }
  else if charAt token 0 = 'K' && charAt token 1 = 'e' && IS_SPACE (charAt token 2) then
    let r := parseReal3 (token.drop 2)
    { st with material := { st.material with emission := r.1 } }
  else if charAt token 0 = 'N' && charAt token 1 = 's' && IS_SPACE (charAt token 2) then
    { st with material := { st.material with shininess := (parseReal (token.drop 2)).1 } }
  else if strncmpEq token "illum" && IS_SPACE (charAt token 5) then
    { st with material := { st.material with illum := (parseInt (token.drop 6)).1 } }
  else if charAt token 0 = 'd' && IS_SPACE (charAt token 1) then
    let r := parseReal (token.drop 1)
    let st1 := { st with material := { st.material with dissolve := r.1 } }
    let st2 := if st.has_tr then
        { st1 with warn := st1.warn ++ dTrWarnText st.material.name }
      else st1
    { st2 with has_d := true }
  else if charAt token 0 = 'T' && charAt token 1 = 'r' && IS_SPACE (charAt token 2) then
    if st.has_d then
      { st with warn := st.warn ++ dTrWarnText st.material.name, has_tr := true }
    else
      { st with
        material := { st.material with
          dissolve := 1 - (parseReal (token.drop 2)).1 },
        has_tr := true }
  else if charAt token 0 = 'P' && charAt token 1 = 'r' && IS_SPACE (charAt token 2) then
    { st with material := { st.material with roughness := (parseReal (token.drop 2)).1 } }
  else if charAt token 0 = 'P' && charAt token 1 = 'm' && IS_SPACE (charAt token 2) then
    { st with material := { st.material with metallic := (parseReal (token.drop 2)).1 } }
  else if charAt token 0 = 'P' && charAt token 1 = 's' && IS_SPACE (charAt token 2) then
    { st with material := { st.material with sheen := (parseReal (token.drop 2)).1 } }
  else if charAt token 0 = 'P' && charAt token 1 = 'c' && IS_SPACE (charAt token 2) then
    { st with material := { st.material with clearcoat_thickness := (parseReal (token.drop 2)).1 } }
  else if strncmpEq token "Pcr" && IS_SPACE (charAt token 3) then
    { st with material := { st.material with clearcoat_roughness := (parseReal (token.drop 4)).1 } }
  else if strncmpEq token "aniso" && IS_SPACE (charAt token 5) then
    { st with material := { st.material with anisotropy := (parseReal (token.drop 6)).1 } }
  else if strncmpEq token "anisor" && IS_SPACE (charAt token 6) then
    { st with material := { st.material with anisotropy_rotation := (parseReal (token.drop 7)).1 } }
  else if strncmpEq token "map_Ka" && IS_SPACE (charAt token 6) then
    let r := ParseTextureNameAndOption (token.drop 7)
    { st with material := { st.material with ambient_texname := applyTexname r st.material.ambient_texname } }
  else if strncmpEq token "map_Kd" && IS_SPACE (charAt token 6) then
    let r := ParseTextureNameAndOption (token.drop 7)
    { st with material := { st.material with diffuse_texname := applyTexname r st.material.diffuse_texname } }
  else if strncmpEq token "map_Ks" && IS_SPACE (charAt token 6) then
    let r := ParseTextureNameAndOption (token.drop 7)
    { st with material := { st.material with specular_texname := applyTexname r st.material.specular_texname } }
  else if strncmpEq token "map_Ns" && IS_SPACE (charAt token 6) then
    let r := ParseTextureNameAndOption (token.drop 7)
    { st with material := { st.material with specular_highlight_texname := applyTexname r st.material.specular_highlight_texname } }
  else if strncmpEq token "map_bump" && IS_SPACE (charAt token 8) then
    let r := ParseTextureNameAndOption (token.drop 9)
    { st with material := { st.material with bump_texname := applyTexname r st.material.bump_texname } }
  else if strncmpEq token "bump" && IS_SPACE (charAt token 4) then
    let r := ParseTextureNameAndOption (token.drop 5)
    { st with material := { st.material with bump_texname := applyTexname r st.material.bump_texname } }
  else if strncmpEq token "map_d" && IS_SPACE (charAt token 5) then
    let pre := String.mk (token.drop 6)
    let r := ParseTextureNameAndOption (token.drop 6)
    { st with material := { st.material with alpha_texname := if r.1 then r.2 else pre } }
  else if strncmpEq token "disp" && IS_SPACE (charAt token 4) then
    let r := ParseTextureNameAndOption (token.drop 5)
    { st with material := { st.material with displacement_texname := applyTexname r st.material.displacement_texname } }
  else if strncmpEq token "refl" && IS_SPACE (charAt token 4) then
    let r := ParseTextureNameAndOption (token.drop 5)
    { st with material := { st.material with reflection_texname := applyTexname r st.material.reflection_texname } }
  else if strncmpEq token "map_Pr" && IS_SPACE (charAt token 6) then
    let r := ParseTextureNameAndOption (token.drop 7)
    { st with material := { st.material with roughness_texname := applyTexname r st.material.roughness_texname } }
  else if strncmpEq token "map_Pm" && IS_SPACE (charAt token 6) then
    let r := ParseTextureNameAndOption (token.drop 7)
    { st with material := { st.material with metallic_texname := applyTexname r st.material.metallic_texname } }
  else if strncmpEq token "map_Ps" && IS_SPACE (charAt token 6) then
    let r := ParseTextureNameAndOption (token.drop 7)
    { st with material := { st.material with sheen_texname := applyTexname r st.material.sheen_texname } }
  else if strncmpEq token "map_Ke" && IS_SPACE (charAt token 6) then
    let r := ParseTextureNameAndOption (token.drop 7)
    { st with material := { st.material with emissive_texname := applyTexname r st.material.emissive_texname } }
  else if strncmpEq token "norm" && IS_SPACE (charAt token 4) then
    let r := ParseTextureNameAndOption (token.drop 5)
    { st with material := { st.material with normal_texname := applyTexname r st.material.normal_texname } }
  else
    let sp := token.dropWhile (fun c => c ≠ ' ')
    let sp2 := if sp.isEmpty then token.dropWhile (fun c => c ≠ '\t') else sp
    if sp2.isEmpty then st
    else
      let len := token.length - sp2.length
      { st with material := { st.material with
          unknown_parameter := mapInsertSS st.material.unknown_parameter
            (String.mk (token.take len)) (String.mk sp2.tail) } }

/-- One line of LoadMtl: trim, skip blanks and comments, commit-and-restart
on `newmtl`, otherwise dispatch to the directive handlers. -/
def mtlStep (st : MtlState) (line : String) : MtlState :=
  let lb0 := line.toList
  let lb1 := if lb0.length > 0 then trimTrailing lb0 else lb0
  let lb2 := if lb1.length > 0 then chompLast lb1 '\n' else lb1
  let lb := if lb2.length > 0 then chompLast lb2 '\r' else lb2
  if lb.isEmpty then st
  else
    let token := lb.dropWhile IS_SPACE
    if peekc token = '\x00' then st
    else if peekc token = '#' then st
    else if strncmpEq token "newmtl" && IS_SPACE (charAt token 6) then
      let st1 :=
        if st.material.name ≠ "" then
          { st with
            material_map := mapInsert st.material_map st.material.name
              (st.materials.length : Int)
            materials := st.materials ++ [st.material] }
        else st
      { st1 with
        material := { InitMaterial with name := String.mk (token.drop 7) }
        has_d := false
        has_tr := false }
    else mtlRest st token

/-- LoadMtl from the source, on an input already split into lines: run the
line loop from a fresh default material, then commit the final open record
unconditionally.  Returns the updated name table, materials list and the
accumulated warning text. -/
def LoadMtl (lines : List String) (material_map : List (String × Int))
    (materials : List Material) :
    List (String × Int) × List Material × String :=
  let st := lines.foldl mtlStep
    ⟨InitMaterial, false, false, material_map, materials, ""⟩
  (mapInsert st.material_map st.material.name (st.materials.length : Int),
   st.materials ++ [st.material], st.warn)

/-! ## Theorems -/

theorem dropWhile_length_le (p : Char → Bool) (l : List Char) :
    (l.dropWhile p).length ≤ l.length := by
  induction l with
  | nil => simp
  | cons c rest ih =>
    by_cases h : p c
    · rw [List.dropWhile_cons, if_pos h]; simp only [List.length_cons]; omega
    · rw [List.dropWhile_cons, if_neg h]

theorem tail_length_le (l : List Char) : l.tail.length ≤ l.length := by
  rw [List.length_tail]; omega

theorem dropWhile_length_lt_of_pos (p : Char → Bool) (c : Char) (rest : List Char)
    (h : p c = true) : ((c :: rest).dropWhile p).length < (c :: rest).length := by
  rw [List.dropWhile_cons, if_pos h]
  have := dropWhile_length_le p rest
  simp only [List.length_cons]
  omega

/-- The cursor returned by parseTriple is a suffix of the cursor after the
first `strcspn(token, "/ \t\r")` advance. -/
theorem parseTriple_cursor_le (token : List Char) (a b c : Int) :
    ((parseTriple token a b c).2).length ≤
      (token.dropWhile (fun x => ¬ isSepSlash x)).length := by
  unfold parseTriple
  set t1 := token.dropWhile (fun x => ¬ isSepSlash x) with ht1
  by_cases h1 : peekc t1 ≠ '/'
  · rw [if_pos h1]
  · rw [if_neg h1]
    by_cases h2 : peekc t1.tail = '/'
    · rw [if_pos h2]
      calc (t1.tail.tail.dropWhile (fun x => ¬ isSepSlash x)).length
          ≤ t1.tail.tail.length := dropWhile_length_le _ _
        _ ≤ t1.tail.length := tail_length_le _
        _ ≤ t1.length := tail_length_le _
    · rw [if_neg h2]
      set t3 := t1.tail.dropWhile (fun x => ¬ isSepSlash x) with ht3
      have h3le : t3.length ≤ t1.length :=
        le_trans (dropWhile_length_le _ _) (tail_length_le _)
      by_cases h3 : peekc t3 ≠ '/'
      · rw [if_pos h3]; exact h3le
      · rw [if_neg h3]
        calc (t3.tail.dropWhile (fun x => ¬ isSepSlash x)).length
            ≤ t3.tail.length := dropWhile_length_le _ _
          _ ≤ t3.length := tail_length_le _
          _ ≤ t1.length := h3le

/-- One iteration of the face-corner loop makes strict progress on the
cursor. -/
theorem faceLoop_progress (token : List Char) (a b c : Int)
    (h : ¬ IS_NEW_LINE (peekc token) = true) :
    (((parseTriple token a b c).2).dropWhile isSepSTR).length < token.length := by
  cases token with
  | nil => exact absurd (by decide) h
  | cons ch rest =>
    have hch : ¬ (ch = '\r' || ch = '\n' || ch = '\x00') = true := by
      simpa [IS_NEW_LINE, peekc] using h
    by_cases hslash : isSepSlash ch
    · -- ch ∈ { '/', ' ', '\t' } (not '\r' by hch): the first strcspn stops at ch
      have ht1 : (ch :: rest).dropWhile (fun x => ¬ isSepSlash x) = ch :: rest := by
        rw [List.dropWhile_cons, if_neg (by simp [hslash])]
      by_cases hsl : ch = '/'
      · -- leading '/': the triple parser consumes it via (*token)++
        have hlt : ((parseTriple (ch :: rest) a b c).2).length ≤ rest.length := by
          unfold parseTriple
          rw [ht1]
          have hpk : ¬ peekc (ch :: rest) ≠ '/' := by simp [peekc, hsl]
          rw [if_neg hpk]
          by_cases h2 : peekc (ch :: rest).tail = '/'
          · rw [if_pos h2]
            calc ((ch :: rest).tail.tail.dropWhile (fun x => ¬ isSepSlash x)).length
                ≤ (ch :: rest).tail.tail.length := dropWhile_length_le _ _
              _ ≤ (ch :: rest).tail.length := tail_length_le _
              _ = rest.length := by simp
          · rw [if_neg h2]
            set t3 := (ch :: rest).tail.dropWhile (fun x => ¬ isSepSlash x) with ht3
            have h3le : t3.length ≤ rest.length := by
              simpa [ht3] using dropWhile_length_le (fun x => ¬ isSepSlash x) rest
            by_cases h3 : peekc t3 ≠ '/'
            · rw [if_pos h3]; exact h3le
            · rw [if_neg h3]
              calc (t3.tail.dropWhile (fun x => ¬ isSepSlash x)).length
                  ≤ t3.tail.length := dropWhile_length_le _ _
                _ ≤ t3.length := tail_length_le _
                _ ≤ rest.length := h3le
        calc (((parseTriple (ch :: rest) a b c).2).dropWhile isSepSTR).length
            ≤ ((parseTriple (ch :: rest) a b c).2).length := dropWhile_length_le _ _
          _ ≤ rest.length := hlt
          _ < (ch :: rest).length := by simp
      · -- ch is ' ' or '\t': the triple parser does not move, but the
        -- trailing strspn(" \t\r") drops ch
        have hsp : isSepSTR ch := by
          have h4 : ch = '/' ∨ ch = ' ' ∨ ch = '\t' ∨ ch = '\r' := by
            have h5 := hslash
            simp [isSepSlash] at h5
            tauto
          rcases h4 with h' | h' | h' | h'
          · exact absurd h' hsl
          · simp [isSepSTR, h']
          · simp [isSepSTR, h']
          · exact absurd (by simp [h']) hch
        have hres : (parseTriple (ch :: rest) a b c).2 = ch :: rest := by
          unfold parseTriple
          rw [ht1]
          have hpk : peekc (ch :: rest) ≠ '/' := by simp [peekc, hsl]
          rw [if_pos hpk]
        rw [hres, List.dropWhile_cons, if_pos hsp]
        have := dropWhile_length_le isSepSTR rest
        simp only [List.length_cons]
        omega
    · -- ch not in "/ \t\r": the first strcspn already drops it
      have ht1 : (ch :: rest).dropWhile (fun x => ¬ isSepSlash x) =
          rest.dropWhile (fun x => ¬ isSepSlash x) := by
        rw [List.dropWhile_cons, if_pos (by simp [hslash])]
      have h1 := parseTriple_cursor_le (ch :: rest) a b c
      rw [ht1] at h1
      have h2 := dropWhile_length_le (fun x => ¬ isSepSlash x) rest
      have h3 := dropWhile_length_le isSepSTR ((parseTriple (ch :: rest) a b c).2)
      simp only [List.length_cons]
      omega

/-- Any fuel larger than the cursor length computes the same face list: the
fuel encoding is exact. -/
theorem parseFaceVertsF_fuel_irrel (vs vns vts : Int) :
    ∀ fuel fuel' token acc, token.length < fuel → token.length < fuel' →
      parseFaceVertsF fuel vs vns vts token acc =
        parseFaceVertsF fuel' vs vns vts token acc := by
  intro fuel
  induction fuel with
  | zero => intro fuel' token acc h; omega
  | succ n ih =>
    intro fuel' token acc h h'
    cases fuel' with
    | zero => omega
    | succ n' =>
      simp only [parseFaceVertsF]
      by_cases hnl : IS_NEW_LINE (peekc token) = true
      · rw [if_pos hnl, if_pos hnl]
      · rw [if_neg hnl, if_neg hnl]
        have hp := faceLoop_progress token vs vns vts hnl
        exact ih n'
          (((parseTriple token vs vns vts).2).dropWhile isSepSTR)
          (acc ++ [(parseTriple token vs vns vts).1]) (by omega) (by omega)

/-- Any fuel larger than the input length computes the same split: the fuel
encoding is exact. -/
theorem SplitStringF_fuel_irrel (delim : Char) :
    ∀ fuel fuel' s, s.length < fuel → s.length < fuel' →
      SplitStringF fuel s delim = SplitStringF fuel' s delim := by
  intro fuel
  induction fuel with
  | zero => intro fuel' s h; omega
  | succ n ih =>
    intro fuel' s h h'
    cases fuel' with
    | zero => omega
    | succ n' =>
      cases s with
      | nil => rfl
      | cons c cs =>
        simp only [SplitStringF]
        cases hdw : (c :: cs).dropWhile (fun x => x ≠ delim) with
        | nil => rfl
        | cons d rest2 =>
          have h1 := dropWhile_length_le (fun x => x ≠ delim) (c :: cs)
          rw [hdw] at h1
          simp only [List.length_cons] at h1 h h'
          dsimp only
          rw [ih n' rest2 (by omega) (by omega)]

/-- One iteration of the `g` name-scanning loop makes strict progress on the
cursor. -/
theorem gNamesLoop_progress (token : List Char)
    (h : ¬ IS_NEW_LINE (peekc token) = true) :
    (((parseString token).2).dropWhile isSepSTR).length < token.length := by
  cases token with
  | nil => exact absurd (by decide) h
  | cons ch rest =>
    have hch : ¬ (ch = '\r' || ch = '\n' || ch = '\x00') = true := by
      simpa [IS_NEW_LINE, peekc] using h
    by_cases hsp : IS_SPACE ch
    · have ht1 : (ch :: rest).dropWhile IS_SPACE = rest.dropWhile IS_SPACE := by
        rw [List.dropWhile_cons, if_pos hsp]
      have h1 : ((parseString (ch :: rest)).2).length ≤ rest.length := by
        simp only [parseString, ht1]
        exact le_trans (dropWhile_length_le _ _) (dropWhile_length_le _ _)
      have h2 := dropWhile_length_le isSepSTR ((parseString (ch :: rest)).2)
      simp only [List.length_cons]
      omega
    · have ht1 : (ch :: rest).dropWhile IS_SPACE = ch :: rest := by
        rw [List.dropWhile_cons, if_neg hsp]
      have hfalse : isSepSTR ch = false := by
        simp only [IS_SPACE, Bool.or_eq_true, decide_eq_true_eq, not_or] at hsp
        simp only [Bool.or_eq_true, decide_eq_true_eq, not_or] at hch
        simp [isSepSTR, hsp.1, hsp.2, hch.1]
      have h1 : ((parseString (ch :: rest)).2).length < (ch :: rest).length := by
        simp only [parseString, ht1]
        exact dropWhile_length_lt_of_pos _ ch rest (by simp [hfalse])
      have h2 := dropWhile_length_le isSepSTR ((parseString (ch :: rest)).2)
      omega

/-- Any fuel larger than the cursor length computes the same name list: the
fuel encoding is exact. -/
theorem parseGNamesF_fuel_irrel :
    ∀ fuel fuel' token acc, token.length < fuel → token.length < fuel' →
      parseGNamesF fuel token acc = parseGNamesF fuel' token acc := by
  intro fuel
  induction fuel with
  | zero => intro fuel' token acc h; omega
  | succ n ih =>
    intro fuel' token acc h h'
    cases fuel' with
    | zero => omega
    | succ n' =>
      simp only [parseGNamesF]
      by_cases hnl : IS_NEW_LINE (peekc token) = true
      · rw [if_pos hnl, if_pos hnl]
      · rw [if_neg hnl, if_neg hnl]
        have hp := gNamesLoop_progress token hnl
        exact ih n' (((parseString token).2).dropWhile isSepSTR)
          (acc ++ [(parseString token).1]) (by omega) (by omega)

/-! ### C1: fixIndex normalization -/

/-- C1: fixIndex maps a positive 1-based index n in [1, count] to n-1, a
negative index -k to count-k, and 0 to 0 (the legacy clamp). -/
theorem fixIndex_normalizes (n count k : Int) :
    (1 ≤ n → n ≤ count → fixIndex n count = n - 1) ∧
    (1 ≤ k → fixIndex (-k) count = count - k) ∧
    fixIndex 0 count = 0 := by
  refine ⟨fun h1 _ => ?_, fun hk => ?_, ?_⟩
  · simp only [fixIndex, if_pos (by omega : n > 0)]
  · have hng : ¬ (-k > 0) := by omega
    have hnz : ¬ (-k = 0) := by omega
    simp only [fixIndex, if_neg hng, if_neg hnz]
    ring
  · simp [fixIndex]

/-- Witness for C1 at n = 2, count = 5, k = 2. -/
theorem fixIndex_normalizes_witness :
    fixIndex 2 5 = 1 ∧ fixIndex (-2) 5 = 3 ∧ fixIndex 0 5 = 0 := by
  refine ⟨?_, ?_, (fixIndex_normalizes 2 5 2).2.2⟩
  · have h := (fixIndex_normalizes 2 5 2).1 (by decide) (by decide)
    simpa using h
  · have h := (fixIndex_normalizes 2 5 2).2.1 (by decide)
    simpa using h

/-! ### C9: numeric token scanner edge cases -/

/-- The integer-digit loop does not move when the cursor does not start with
a digit. -/
theorem scanIntDigits_no_digit (m : ℚ) (r : Nat) (l : List Char)
    (h : IS_DIGIT (peekc l) = false) : scanIntDigits m r l = (m, r, l) := by
  cases l with
  | nil => rfl
  | cons c rest => simp only [scanIntDigits, peekc] at h ⊢; rw [h]; simp

/-- The run dropped by `dropWhile p` ends at the first element violating `p`. -/
theorem dropWhile_head_not (p : Char → Bool) (l : List Char) :
    l.dropWhile p = [] ∨ p (peekc (l.dropWhile p)) = false := by
  induction l with
  | nil => exact Or.inl rfl
  | cons c rest ih =>
    by_cases h : p c
    · simpa [List.dropWhile_cons, h] using ih
    · right
      simp [List.dropWhile_cons, h, peekc]

/-- C9: the numeric token scanner fails (keeping the caller's default) when
the range is empty, starts with neither a sign nor a digit, or has no digits
after an optional sign; and parseReal always advances the cursor to the first
space/tab/CR separator past the token. -/
theorem tryParseDouble_edge_cases :
    (tryParseDouble [] = none) ∧
    (∀ c cs, (c = '+' || c = '-') = false → IS_DIGIT c = false →
      tryParseDouble (c :: cs) = none) ∧
    (∀ c cs, (c = '+' || c = '-') = true → IS_DIGIT (peekc cs) = false →
      tryParseDouble (c :: cs) = none) ∧
    (∀ tok d, tryParseDouble
        ((tok.dropWhile IS_SPACE).takeWhile (fun c => ¬ isSepSTR c)) = none →
      (parseReal tok d).1 = d) ∧
    (∀ tok d, ∃ pre,
      tok.dropWhile IS_SPACE = pre ++ (parseReal tok d).2 ∧
      (∀ c ∈ pre, isSepSTR c = false) ∧
      ((parseReal tok d).2 = [] ∨ isSepSTR (peekc (parseReal tok d).2) = true)) := by
  refine ⟨rfl, ?_, ?_, ?_, ?_⟩
  · intro c cs h1 h2
    simp only [tryParseDouble, h1, h2]
    simp
  · intro c cs h1 h2
    have h3 := scanIntDigits_no_digit 0 0 cs h2
    simp [tryParseDouble, h1, h3]
  · intro tok d h
    simp only [parseReal] at h ⊢
    rw [h]
    rfl
  · intro tok d
    refine ⟨(tok.dropWhile IS_SPACE).takeWhile (fun c => ¬ isSepSTR c), ?_, ?_, ?_⟩
    · simp [parseReal, List.takeWhile_append_dropWhile]
    · intro c hc
      have := List.mem_takeWhile_imp hc
      simpa using this
    · have h := dropWhile_head_not (fun c => ¬ isSepSTR c) (tok.dropWhile IS_SPACE)
      rcases h with h | h
      · exact Or.inl (by simpa [parseReal] using h)
      · right
        simp only [parseReal]
        simpa using h

/-! ### Helper lemmas on the flush and the line dispatcher -/

/-- Flushing an empty face group changes nothing and reports false. -/
theorem exportFaceGroup_nil (sh : Shape) (tags : List Tag) (matId : Int)
    (nm : String) (tri : Bool) :
    exportFaceGroupToShape sh [] tags matId nm tri = some (sh, false) := rfl

/-- The flush reports true exactly when the face group was non-empty. -/
theorem exportFaceGroup_ret_iff (sh : Shape) (fg : List (List VertexIndex))
    (tags : List Tag) (matId : Int) (nm : String) (tri : Bool)
    (s2 : Shape) (ret : Bool)
    (h : exportFaceGroupToShape sh fg tags matId nm tri = some (s2, ret)) :
    (ret = true ↔ fg ≠ []) := by
  unfold exportFaceGroupToShape at h
  by_cases hfg : fg = []
  · rw [if_pos hfg] at h
    injection h with h2
    injection h2 with _ h3
    simp [← h3, hfg]
  · rw [if_neg hfg] at h
    cases hE : exportLoop tri matId fg sh.mesh with
    | none => rw [hE] at h; exact Option.noConfusion h
    | some m =>
      rw [hE] at h
      injection h with h2
      injection h2 with _ h3
      simp [← h3, hfg]

theorem handleUsemtl_attrib (tri : Bool) (st : ObjState) (tok : List Char)
    (st' : ObjState) (h : handleUsemtl tri st tok = some st') :
    st'.v = st.v ∧ st'.vn = st.vn ∧ st'.vt = st.vt := by
  unfold handleUsemtl at h
  dsimp only at h
  repeat' split at h
  all_goals first
    | exact Option.noConfusion h
    | (injection h with h2; subst h2; exact ⟨rfl, rfl, rfl⟩)

theorem handleG_attrib (tri : Bool) (st : ObjState) (tok : List Char)
    (st' : ObjState) (h : handleG tri st tok = some st') :
    st'.v = st.v ∧ st'.vn = st.vn ∧ st'.vt = st.vt := by
  unfold handleG at h
  repeat' split at h
  all_goals first
    | exact Option.noConfusion h
    | (injection h with h2; subst h2; exact ⟨rfl, rfl, rfl⟩)

theorem handleO_attrib (tri : Bool) (st : ObjState) (tok : List Char)
    (st' : ObjState) (h : handleO tri st tok = some st') :
    st'.v = st.v ∧ st'.vn = st.vn ∧ st'.vt = st.vt := by
  unfold handleO at h
  repeat' split at h
  all_goals first
    | exact Option.noConfusion h
    | (injection h with h2; subst h2; exact ⟨rfl, rfl, rfl⟩)

theorem handleMtllib_attrib (rd : Option MatReader) (st : ObjState)
    (tok : List Char) :
    (handleMtllib rd st tok).v = st.v ∧ (handleMtllib rd st tok).vn = st.vn ∧
      (handleMtllib rd st tok).vt = st.vt := by
  unfold handleMtllib
  cases rd with
  | none => exact ⟨rfl, rfl, rfl⟩
  | some reader =>
    dsimp only
    repeat' split
    all_goals exact ⟨rfl, rfl, rfl⟩

/-- One dispatcher step never shrinks the three attribute arrays. -/
theorem processObjLine_counts_mono (rd : Option MatReader) (tri : Bool)
    (st : ObjState) (line : String) (st' : ObjState)
    (h : processObjLine rd tri st line = some st') :
    st.v.length ≤ st'.v.length ∧ st.vn.length ≤ st'.vn.length ∧
      st.vt.length ≤ st'.vt.length := by
  unfold processObjLine at h
  dsimp only at h
  generalize List.dropWhile IS_SPACE line.toList = token at h
  by_cases h1 : line.toList.isEmpty = true
  · rw [if_pos h1] at h
    injection h with h2; subst h2; exact ⟨le_refl _, le_refl _, le_refl _⟩
  rw [if_neg h1] at h
  by_cases h2 : peekc token = '\x00'
  · rw [if_pos h2] at h
    injection h with h2; subst h2; exact ⟨le_refl _, le_refl _, le_refl _⟩
  rw [if_neg h2] at h
  by_cases h3 : peekc token = '#'
  · rw [if_pos h3] at h
    injection h with h2; subst h2; exact ⟨le_refl _, le_refl _, le_refl _⟩
  rw [if_neg h3] at h
  by_cases h4 : (charAt token 0 = 'v' && IS_SPACE (charAt token 1)) = true
  · rw [if_pos h4] at h
    injection h with h2; subst h2
    refine ⟨?_, le_refl _, le_refl _⟩
    simp [handleV]
  rw [if_neg h4] at h
  by_cases h5 : (charAt token 0 = 'v' && charAt token 1 = 'n' &&
      IS_SPACE (charAt token 2)) = true
  · rw [if_pos h5] at h
    injection h with h2; subst h2
    refine ⟨le_refl _, ?_, le_refl _⟩
    simp [handleVn]
  rw [if_neg h5] at h
  by_cases h6 : (charAt token 0 = 'v' && charAt token 1 = 't' &&
      IS_SPACE (charAt token 2)) = true
  · rw [if_pos h6] at h
    injection h with h2; subst h2
    refine ⟨le_refl _, le_refl _, ?_⟩
    simp [handleVt]
  rw [if_neg h6] at h
  by_cases h7 : (charAt token 0 = 'f' && IS_SPACE (charAt token 1)) = true
  · rw [if_pos h7] at h
    injection h with h2; subst h2
    exact ⟨le_refl _, le_refl _, le_refl _⟩
  rw [if_neg h7] at h
  by_cases h8 : (strncmpEq token "usemtl" && IS_SPACE (charAt token 6)) = true
  · rw [if_pos h8] at h
    obtain ⟨e1, e2, e3⟩ := handleUsemtl_attrib tri st token st' h
    rw [e1, e2, e3]; exact ⟨le_refl _, le_refl _, le_refl _⟩
  rw [if_neg h8] at h
  by_cases h9 : (strncmpEq token "mtllib" && IS_SPACE (charAt token 6)) = true
  · rw [if_pos h9] at h
    injection h with h2; subst h2
    obtain ⟨e1, e2, e3⟩ := handleMtllib_attrib rd st token
    rw [e1, e2, e3]; exact ⟨le_refl _, le_refl _, le_refl _⟩
  rw [if_neg h9] at h
  by_cases h10 : (charAt token 0 = 'g' && IS_SPACE (charAt token 1)) = true
  · rw [if_pos h10] at h
    obtain ⟨e1, e2, e3⟩ := handleG_attrib tri st token st' h
    rw [e1, e2, e3]; exact ⟨le_refl _, le_refl _, le_refl _⟩
  rw [if_neg h10] at h
  by_cases h11 : (charAt token 0 = 'o' && IS_SPACE (charAt token 1)) = true
  · rw [if_pos h11] at h
    obtain ⟨e1, e2, e3⟩ := handleO_attrib tri st token st' h
    rw [e1, e2, e3]; exact ⟨le_refl _, le_refl _, le_refl _⟩
  rw [if_neg h11] at h
  by_cases h12 : (charAt token 0 = 't' && IS_SPACE (charAt token 1)) = true
  · rw [if_pos h12] at h
    injection h with h2; subst h2
    exact ⟨le_refl _, le_refl _, le_refl _⟩
  rw [if_neg h12] at h
  injection h with h2; subst h2
  exact ⟨le_refl _, le_refl _, le_refl _⟩

theorem peekc_cons (c : Char) (l : List Char) : peekc (c :: l) = c := rfl

theorem charAt_zero (l : List Char) : charAt l 0 = peekc l := rfl

theorem charAt_cons_succ (c : Char) (l : List Char) (i : Nat) :
    charAt (c :: l) (i + 1) = charAt l i := rfl

/-- A line whose first non-space character is `g` followed by a space/tab
reaches the `g` handler. -/
theorem processObjLine_g_dispatch (rd : Option MatReader) (tri : Bool)
    (st : ObjState) (line : String) (t2 : List Char)
    (htok : line.toList.dropWhile IS_SPACE = 'g' :: t2)
    (hsp : IS_SPACE (peekc t2) = true) :
    processObjLine rd tri st line = handleG tri st ('g' :: t2) := by
  have hlb : line.toList.isEmpty = false := by
    cases hl : line.toList with
    | nil => rw [hl] at htok; exact absurd htok (by simp)
    | cons a as => rfl
  have hu : strncmpEq ('g' :: t2) "usemtl" = false := rfl
  have hm : strncmpEq ('g' :: t2) "mtllib" = false := rfl
  unfold processObjLine
  dsimp only
  rw [htok, hlb]
  simp [peekc_cons, charAt_zero, charAt_cons_succ, hsp, hu, hm]

/-- A line whose first non-space character is `o` followed by a space/tab
reaches the `o` handler. -/
theorem processObjLine_o_dispatch (rd : Option MatReader) (tri : Bool)
    (st : ObjState) (line : String) (t2 : List Char)
    (htok : line.toList.dropWhile IS_SPACE = 'o' :: t2)
    (hsp : IS_SPACE (peekc t2) = true) :
    processObjLine rd tri st line = handleO tri st ('o' :: t2) := by
  have hlb : line.toList.isEmpty = false := by
    cases hl : line.toList with
    | nil => rw [hl] at htok; exact absurd htok (by simp)
    | cons a as => rfl
  have hu : strncmpEq ('o' :: t2) "usemtl" = false := rfl
  have hm : strncmpEq ('o' :: t2) "mtllib" = false := rfl
  unfold processObjLine
  dsimp only
  rw [htok, hlb]
  simp [peekc_cons, charAt_zero, charAt_cons_succ, hsp, hu, hm]

/-! ### C3: bounds of emitted indices -/

/-- C3 counterexample: the load of `v 0 0 0` + `f 2 2 2` completes with an
emitted vertex index 1 while the final position array holds a single triple,
so the non-absent component is not within bounds (no validation exists). -/
theorem loadObj_index_out_of_bounds_cex :
    LoadObj none true [] ["v 0 0 0", "f 2 2 2"] =
      some { attrib := ⟨[0, 0, 0], [], []⟩,
             shapes := [⟨"", ⟨[⟨1, -1, -1⟩, ⟨1, -1, -1⟩, ⟨1, -1, -1⟩],
               [3], [-1], []⟩⟩],
             materials := [], err := "", ret := true } ∧
    ¬ ((1 : Int) < ((([(0 : ℚ), 0, 0].length / 3 : Nat)) : Int)) := by
  constructor
  · with_unfolding_all decide
  · decide

/-- C3 (amended): the normalization of a raw index that is in range at parse
time — positive in [1, count] or negative in [-count, -1] — lands in
[0, count), hence below every later (final) count, because a dispatcher step
never shrinks the attribute arrays; raw indices of 0 or out of range are not
validated and can produce out-of-bounds components. -/
theorem emitted_index_bounds_for_in_range_raws :
    (∀ idx n N : Int, 1 ≤ idx → idx ≤ n → n ≤ N →
      0 ≤ fixIndex idx n ∧ fixIndex idx n < N) ∧
    (∀ idx n N : Int, -n ≤ idx → idx ≤ -1 → n ≤ N →
      0 ≤ fixIndex idx n ∧ fixIndex idx n < N) ∧
    (∀ rd tri st line st', processObjLine rd tri st line = some st' →
      st.v.length ≤ st'.v.length ∧ st.vn.length ≤ st'.vn.length ∧
        st.vt.length ≤ st'.vt.length) := by
  refine ⟨?_, ?_, processObjLine_counts_mono⟩
  · intro idx n N h1 h2 h3
    have hfix : fixIndex idx n = idx - 1 := by
      unfold fixIndex
      rw [if_pos (by omega : idx > 0)]
    rw [hfix]
    omega
  · intro idx n N h1 h2 h3
    have hfix : fixIndex idx n = n + idx := by
      unfold fixIndex
      rw [if_neg (by omega : ¬ idx > 0), if_neg (by omega : ¬ idx = 0)]
    rw [hfix]
    omega

/-- Witness for C3 (amended): raw index 2 against count 3 maps to 1 < 4,
raw -1 against count 3 maps to 2 < 4, and a `v` line grows the position
array. -/
theorem emitted_index_bounds_for_in_range_raws_witness :
    (0 ≤ fixIndex 2 3 ∧ fixIndex 2 3 < 4) ∧
    (0 ≤ fixIndex (-1) 3 ∧ fixIndex (-1) 3 < 4) ∧
    ((initObjState []).v.length ≤
      (handleV (initObjState []) (String.toList "v 1 2 3")).v.length) := by
  refine ⟨?_, ?_, ?_⟩
  · exact emitted_index_bounds_for_in_range_raws.1 2 3 4
      (by decide) (by decide) (by decide)
  · exact emitted_index_bounds_for_in_range_raws.2.1 (-1) 3 4
      (by decide) (by decide) (by decide)
  · have h := emitted_index_bounds_for_in_range_raws.2.2 none true
      (initObjState []) "v 1 2 3"
      (handleV (initObjState []) (String.toList "v 1 2 3"))
      (by with_unfolding_all decide)
    exact h.1

/-! ### C4: the g/o directive boundary -/

/-- C4 counterexample: a tag recorded before a `g` directive still decorates
the shape flushed after it — the pending tag list is not cleared at the
`g`/`o` boundary. -/
theorem loadObj_g_keeps_tags_cex :
    LoadObj none true []
        ["t x 1/0/0 7", "g a", "v 0 0 0", "v 0 0 0", "v 0 0 0", "f 1 2 3"] =
      some { attrib := ⟨[0, 0, 0, 0, 0, 0, 0, 0, 0], [], []⟩,
             shapes := [⟨"a", ⟨[⟨0, -1, -1⟩, ⟨1, -1, -1⟩, ⟨2, -1, -1⟩],
               [3], [-1], [⟨"x 1/0/0 7", [], [], []⟩]⟩⟩],
             materials := [], err := "", ret := true } := by
  with_unfolding_all decide

/-- C4 (amended): a `g` (resp. `o`) line flushes the pending face group into
the current shape, appends the shape to the output list exactly when the
flush returned true (iff the pending face list was non-empty), resets the
shape state and takes the new name from the directive, and clears the
pending face list — but the pending tag list is left unchanged, not
cleared. -/
theorem g_directive_flush_and_reset :
    (∀ (rd : Option MatReader) (tri : Bool) (st : ObjState) (line : String)
      (st' : ObjState) (t2 : List Char),
      line.toList.dropWhile IS_SPACE = 'g' :: t2 →
      IS_SPACE (peekc t2) = true →
      processObjLine rd tri st line = some st' →
      ∃ sh ret,
        exportFaceGroupToShape st.shape st.faceGroup st.tags st.material
          st.name tri = some (sh, ret) ∧
        (ret = true ↔ st.faceGroup ≠ []) ∧
        st'.shapes = (if ret then st.shapes ++ [sh] else st.shapes) ∧
        st'.faceGroup = [] ∧
        st'.shape = emptyShape ∧
        st'.name = (if (parseGNames ('g' :: t2)).length > 1
          then (parseGNames ('g' :: t2)).getD 1 "" else "") ∧
        st'.tags = st.tags) ∧
    (∀ (rd : Option MatReader) (tri : Bool) (st : ObjState) (line : String)
      (st' : ObjState) (t2 : List Char),
      line.toList.dropWhile IS_SPACE = 'o' :: t2 →
      IS_SPACE (peekc t2) = true →
      processObjLine rd tri st line = some st' →
      ∃ sh ret,
        exportFaceGroupToShape st.shape st.faceGroup st.tags st.material
          st.name tri = some (sh, ret) ∧
        (ret = true ↔ st.faceGroup ≠ []) ∧
        st'.shapes = (if ret then st.shapes ++ [sh] else st.shapes) ∧
        st'.faceGroup = [] ∧
        st'.shape = emptyShape ∧
        st'.name = String.mk (('o' :: t2).drop 2) ∧
        st'.tags = st.tags) := by
  constructor
  · intro rd tri st line st' t2 htok hsp h
    rw [processObjLine_g_dispatch rd tri st line t2 htok hsp] at h
    unfold handleG at h
    cases hE : exportFaceGroupToShape st.shape st.faceGroup st.tags st.material
        st.name tri with
    | none => rw [hE] at h; exact Option.noConfusion h
    | some pr =>
      obtain ⟨sh, ret⟩ := pr
      rw [hE] at h
      injection h with h2
      subst h2
      exact ⟨sh, ret, rfl,
        exportFaceGroup_ret_iff st.shape st.faceGroup st.tags st.material
          st.name tri sh ret hE, rfl, rfl, rfl, rfl, rfl⟩
  · intro rd tri st line st' t2 htok hsp h
    rw [processObjLine_o_dispatch rd tri st line t2 htok hsp] at h
    unfold handleO at h
    cases hE : exportFaceGroupToShape st.shape st.faceGroup st.tags st.material
        st.name tri with
    | none => rw [hE] at h; exact Option.noConfusion h
    | some pr =>
      obtain ⟨sh, ret⟩ := pr
      rw [hE] at h
      injection h with h2
      subst h2
      exact ⟨sh, ret, rfl,
        exportFaceGroup_ret_iff st.shape st.faceGroup st.tags st.material
          st.name tri sh ret hE, rfl, rfl, rfl, rfl, rfl⟩

/-- Witness for C4 (amended): processing `g a` (resp. `o b`) from
`sampleStateG` keeps the pending tag. -/
theorem g_directive_flush_and_reset_witness :
    (processObjLine none true sampleStateG "g a").map ObjState.tags =
      some [sampleTag] ∧
    (processObjLine none true sampleStateG "o b").map ObjState.tags =
      some [sampleTag] := by
  constructor
  · have hrun : processObjLine none true sampleStateG "g a" =
        some sampleStateGOut := by with_unfolding_all decide
    obtain ⟨sh, ret, hE, hiff, hshapes, hfg, hshape, hname, htags⟩ :=
      g_directive_flush_and_reset.1 none true sampleStateG "g a" _ (" a".toList)
        (by decide) (by decide) hrun
    rw [hrun]
    exact congrArg some (htags.trans rfl)
  · have hrun : processObjLine none true sampleStateG "o b" =
        some sampleStateOOut := by with_unfolding_all decide
    obtain ⟨sh, ret, hE, hiff, hshapes, hfg, hshape, hname, htags⟩ :=
      g_directive_flush_and_reset.2 none true sampleStateG "o b" _ (" b".toList)
        (by decide) (by decide) hrun
    rw [hrun]
    exact congrArg some (htags.trans rfl)

/-! ### C5: end-of-stream shape emission -/

/-- C5 counterexample: a face group holding only a two-corner face, flushed
at a mid-stream `g`, appends a zero-face shape to the output that is not the
final pending shape (the claim allows zero-face shapes only at stream end). -/
theorem loadObj_zero_face_shape_mid_stream_cex :
    LoadObj none true []
        ["f 1 2", "g x", "v 0 0 0", "v 0 0 0", "v 0 0 0", "f 1 2 3"] =
      some { attrib := ⟨[0, 0, 0, 0, 0, 0, 0, 0, 0], [], []⟩,
             shapes := [⟨"", ⟨[], [], [], []⟩⟩,
                        ⟨"x", ⟨[⟨0, -1, -1⟩, ⟨1, -1, -1⟩, ⟨2, -1, -1⟩],
                          [3], [-1], []⟩⟩],
             materials := [], err := "", ret := true } := by
  with_unfolding_all decide

/-- C5 (amended): at end of stream the pending face list is flushed into the
final pending shape, which is appended to the output iff the pending face
list was non-empty or the shape's mesh already held at least one accumulated
index.  (Zero-face shapes can, however, also be appended mid-stream when a
face group of sub-triangle faces is flushed at a g/o boundary.) -/
theorem finishObj_append_iff (tri : Bool) (st st' : ObjState)
    (h : finishObj tri st = some st') :
    ∃ sh ret,
      exportFaceGroupToShape st.shape st.faceGroup st.tags st.material st.name
        tri = some (sh, ret) ∧
      (st'.shapes = st.shapes ++ [sh] ↔
        (st.faceGroup ≠ [] ∨ st.shape.mesh.indices ≠ [])) ∧
      (st.faceGroup = [] → st.shape.mesh.indices = [] →
        st'.shapes = st.shapes) := by
  unfold finishObj at h
  cases hE : exportFaceGroupToShape st.shape st.faceGroup st.tags st.material
      st.name tri with
  | none => rw [hE] at h; exact Option.noConfusion h
  | some pr =>
    obtain ⟨sh, ret⟩ := pr
    rw [hE] at h
    injection h with h2
    subst h2
    have hiff := exportFaceGroup_ret_iff st.shape st.faceGroup st.tags
      st.material st.name tri sh ret hE
    have hcond : (ret || !sh.mesh.indices.isEmpty) = true ↔
        (st.faceGroup ≠ [] ∨ st.shape.mesh.indices ≠ []) := by
      by_cases hfg : st.faceGroup = []
      · have hret : ret = false := by
          cases hr : ret
          · rfl
          · exact absurd (hiff.mp hr) (by simp [hfg])
        have hsh : st.shape = sh := by
          rw [hfg, exportFaceGroup_nil] at hE
          injection hE with hE2
          exact congrArg Prod.fst hE2
        subst hret
        rw [← hsh]
        simp only [Bool.false_or]
        constructor
        · intro hne
          refine Or.inr ?_
          intro hempty
          rw [hempty] at hne
          exact absurd hne (by decide)
        · intro hor
          rcases hor with h1 | h1
          · exact absurd hfg h1
          · cases hi : st.shape.mesh.indices with
            | nil => exact absurd hi h1
            | cons a as => rfl
      · have hret : ret = true := hiff.mpr hfg
        subst hret
        simp [hfg]
    refine ⟨sh, ret, rfl, ?_, ?_⟩
    · by_cases hc : (ret || !sh.mesh.indices.isEmpty) = true
      · show (if ret || !sh.mesh.indices.isEmpty then st.shapes ++ [sh]
            else st.shapes) = st.shapes ++ [sh] ↔ _
        rw [if_pos hc]
        exact ⟨fun _ => hcond.mp hc, fun _ => rfl⟩
      · show (if ret || !sh.mesh.indices.isEmpty then st.shapes ++ [sh]
            else st.shapes) = st.shapes ++ [sh] ↔ _
        rw [if_neg hc]
        constructor
        · intro heq
          have hlen := congrArg List.length heq
          rw [List.length_append] at hlen
          exact absurd hlen (by simp)
        · intro hor
          exact absurd (hcond.mpr hor) hc
    · intro hfg hidx
      have hc : ¬ ((ret || !sh.mesh.indices.isEmpty) = true) := by
        intro hc
        rcases hcond.mp hc with h1 | h1
        · exact h1 hfg
        · exact h1 hidx
      show (if ret || !sh.mesh.indices.isEmpty then st.shapes ++ [sh]
          else st.shapes) = st.shapes
      rw [if_neg hc]

/-- Witness for C5 (amended): at end of stream `sampleStateEnd`'s pending
shape is appended because its mesh already holds an index. -/
theorem finishObj_append_iff_witness :
    (finishObj true sampleStateEnd).map ObjState.shapes =
      some [⟨"s", ⟨[⟨0, -1, -1⟩], [1], [-1], []⟩⟩] := by
  have hrun : finishObj true sampleStateEnd = some sampleStateEndOut := by
    decide
  obtain ⟨sh, ret, hE, hiff, _⟩ :=
    finishObj_append_iff true sampleStateEnd sampleStateEndOut hrun
  have hsh : sampleStateEnd.shape = sh := by
    have hE2 := hE
    rw [show sampleStateEnd.faceGroup = [] from rfl, exportFaceGroup_nil] at hE2
    injection hE2 with hE3
    exact congrArg Prod.fst hE3
  have happ : sampleStateEndOut.shapes = sampleStateEnd.shapes ++ [sh] :=
    hiff.mpr (Or.inr (by decide))
  have hfinal : sampleStateEndOut.shapes =
      [⟨"s", ⟨[⟨0, -1, -1⟩], [1], [-1], []⟩⟩] := by
    rw [happ, ← hsh]; rfl
  rw [hrun]
  exact congrArg some hfinal

/-- The fan loop appends `fanIndices`, one count-3 record and one material id
per emitted triangle. -/
theorem fanLoop_append (matId : Int) (i0 : VertexIndex) :
    ∀ (l : List VertexIndex) (i2 : VertexIndex) (m : Mesh),
      fanLoop matId i0 i2 l m =
        { m with
          indices := m.indices ++ fanIndices i0 i2 l,
          num_face_vertices := m.num_face_vertices ++ List.replicate l.length 3,
          material_ids := m.material_ids ++ List.replicate l.length matId } := by
  intro l
  induction l with
  | nil => intro i2 m; simp [fanLoop, fanIndices]
  | cons x rest ih =>
    intro i2 m
    simp [fanLoop, fanIndices, pushTriangle, ih, List.replicate_succ]

/-- `fanIndices`, started at corner k with the running i2 = face[k-1],
produces exactly the triangles (i0, face[j-1], face[j]) for j = k .. n-1. -/
theorem fanIndices_eq_range (i0 d : VertexIndex) (face : List VertexIndex) :
    ∀ n k, n = face.length - k → 1 ≤ k →
      fanIndices i0 (face.getD (k - 1) d) (face.drop k) =
        ((List.range' k (face.length - k)).map (fun j =>
          [toIndexT i0, toIndexT (face.getD (j - 1) d),
           toIndexT (face.getD j d)])).join := by
  intro n
  induction n with
  | zero =>
    intro k hn _
    have hk : face.length ≤ k := by omega
    rw [List.drop_eq_nil_of_le hk]
    have : face.length - k = 0 := by omega
    rw [this]
    rfl
  | succ n ih =>
    intro k hn hk1
    have hklt : k < face.length := by omega
    have hdrop : face.drop k = face.get ⟨k, hklt⟩ :: face.drop (k + 1) :=
      List.drop_eq_get_cons hklt
    have hget : face.get ⟨k, hklt⟩ = face.getD k d :=
      (List.getD_eq_get face d hklt).symm
    have hrange : face.length - k = (face.length - (k + 1)) + 1 := by omega
    rw [hdrop, hget]
    show [toIndexT i0, toIndexT (face.getD (k - 1) d), toIndexT (face.getD k d)]
        ++ fanIndices i0 (face.getD k d) (face.drop (k + 1)) = _
    have hik : face.getD k d = face.getD ((k + 1) - 1) d := by norm_num
    rw [hik, ih (k + 1) (by omega) (by omega), hrange, List.range'_succ]
    simp

/-- Helper: the flush of a single face through exportLoop. -/
theorem exportLoop_single (tri : Bool) (matId : Int) (m : Mesh)
    (face : List VertexIndex) :
    exportLoop tri matId [face] m = exportFace tri matId m face := by
  simp only [exportLoop]
  cases exportFace tri matId m face <;> rfl

/-- C2 (amended): flushing a single face of n ≥ 2 corners emits, with
triangulation on, exactly the n-2 fan triangles (i0, i(k-1), ik) for
k = 2..n-1 in order, each with face-vertex count 3 and the current material
id; with triangulation off, one record with all n corners in input order and
face-vertex count n mod 256 (the source stores it in an unsigned char). -/
theorem exportFaceGroup_fan_spec (sh : Shape) (face : List VertexIndex)
    (tags : List Tag) (matId : Int) (nm : String) (d : VertexIndex)
    (h2 : 2 ≤ face.length) :
    (exportFaceGroupToShape sh [face] tags matId nm true =
      some ({ name := nm, mesh :=
        { indices := sh.mesh.indices ++
            ((List.range' 2 (face.length - 2)).map (fun k =>
              [toIndexT (face.getD 0 d), toIndexT (face.getD (k - 1) d),
               toIndexT (face.getD k d)])).join,
          num_face_vertices := sh.mesh.num_face_vertices ++
            List.replicate (face.length - 2) 3,
          material_ids := sh.mesh.material_ids ++
            List.replicate (face.length - 2) matId,
          tags := tags } }, true)) ∧
    (exportFaceGroupToShape sh [face] tags matId nm false =
      some ({ name := nm, mesh :=
        { indices := sh.mesh.indices ++ face.map toIndexT,
          num_face_vertices := sh.mesh.num_face_vertices ++ [face.length % 256],
          material_ids := sh.mesh.material_ids ++ [matId],
          tags := tags } }, true)) := by
  obtain ⟨a, b, rest, rfl⟩ : ∃ a b rest, face = a :: b :: rest := by
    match face, h2 with
    | a :: b :: rest, _ => exact ⟨a, b, rest, rfl⟩
  constructor
  · have e1 : exportFaceGroupToShape sh [a :: b :: rest] tags matId nm true =
        some (⟨nm, { fanLoop matId a b rest sh.mesh with tags := tags }⟩, true) := rfl
    have hfan := fanLoop_append matId a rest b sh.mesh
    have hrng2 : fanIndices a b rest =
        ((List.range' 2 ((a :: b :: rest).length - 2)).map (fun j =>
          [toIndexT a, toIndexT ((a :: b :: rest).getD (j - 1) d),
           toIndexT ((a :: b :: rest).getD j d)])).join :=
      fanIndices_eq_range a d (a :: b :: rest)
        ((a :: b :: rest).length - 2) 2 rfl (by omega)
    rw [e1, hfan, hrng2]
    have hlen : (a :: b :: rest).length - 2 = rest.length := by simp
    simp only [hlen]
    rfl
  · have e2 : exportFaceGroupToShape sh [a :: b :: rest] tags matId nm false =
        some (⟨nm,
          { indices := sh.mesh.indices ++ (a :: b :: rest).map toIndexT,
            num_face_vertices := sh.mesh.num_face_vertices ++
              [(a :: b :: rest).length % 256],
            material_ids := sh.mesh.material_ids ++ [matId],
            tags := tags }⟩, true) := rfl
    exact e2

/-- Witness for C2 (amended) at the quad face of the spec example: two
triangles (0,1,2) and (0,2,3), six index entries, vertex counts [3,3]; and
without triangulation one record of four corners with count 4. -/
theorem exportFaceGroup_fan_spec_witness :
    exportFaceGroupToShape emptyShape
        [[⟨0, -1, -1⟩, ⟨1, -1, -1⟩, ⟨2, -1, -1⟩, ⟨3, -1, -1⟩]] [] (-1) "" true =
      some (⟨"", ⟨[⟨0, -1, -1⟩, ⟨1, -1, -1⟩, ⟨2, -1, -1⟩,
                   ⟨0, -1, -1⟩, ⟨2, -1, -1⟩, ⟨3, -1, -1⟩],
        [3, 3], [-1, -1], []⟩⟩, true) ∧
    exportFaceGroupToShape emptyShape
        [[⟨0, -1, -1⟩, ⟨1, -1, -1⟩, ⟨2, -1, -1⟩, ⟨3, -1, -1⟩]] [] (-1) "" false =
      some (⟨"", ⟨[⟨0, -1, -1⟩, ⟨1, -1, -1⟩, ⟨2, -1, -1⟩, ⟨3, -1, -1⟩],
        [4], [-1], []⟩⟩, true) := by
  have h := exportFaceGroup_fan_spec emptyShape
    [⟨0, -1, -1⟩, ⟨1, -1, -1⟩, ⟨2, -1, -1⟩, ⟨3, -1, -1⟩] [] (-1) "" ⟨-1, -1, -1⟩
    (by decide)
  exact ⟨by rw [h.1]; decide, by rw [h.2]; decide⟩

set_option maxRecDepth 4096 in
/-- C2 counterexample: a 256-corner face flushed without triangulation is
recorded with face-vertex count 0, not 256 — the count is truncated to an
unsigned char. -/
theorem exportFaceGroup_vertex_count_truncation :
    exportFaceGroupToShape emptyShape
        [List.replicate 256 (⟨1, -1, -1⟩ : VertexIndex)] [] (-1) "" false =
      some (⟨"", ⟨List.replicate 256 (⟨1, -1, -1⟩ : IndexT),
        [0], [-1], []⟩⟩, true) := by decide

/-! ### C10: the flush requires every face to have at least two corners -/

theorem exportFace_isSome (tri : Bool) (matId : Int) (m : Mesh)
    (f : List VertexIndex) (h : 2 ≤ f.length) :
    (exportFace tri matId m f).isSome := by
  obtain ⟨a, b, rest, rfl⟩ : ∃ a b rest, f = a :: b :: rest := by
    match f, h with
    | a :: b :: rest, _ => exact ⟨a, b, rest, rfl⟩
  cases tri <;> simp [exportFace]

theorem exportLoop_isSome (tri : Bool) (matId : Int) :
    ∀ (fg : List (List VertexIndex)) (m : Mesh),
      (∀ f ∈ fg, 2 ≤ f.length) → (exportLoop tri matId fg m).isSome := by
  intro fg
  induction fg with
  | nil => intro m _; rfl
  | cons f fs ih =>
    intro m h
    obtain ⟨m2, hm2⟩ := Option.isSome_iff_exists.mp
      (exportFace_isSome tri matId m f (h f (by simp)))
    simp only [exportLoop, Option.bind_eq_bind, hm2, Option.some_bind]
    exact ih m2 (fun g hg => h g (by simp [hg]))

/-- C10: the face-group flush reads corners 0 and 1 of every face before
checking the face's size, so it is in-bounds precisely under the
precondition that every accumulated face has at least two corners; a
one-corner face makes the flush perform an out-of-bounds access (`none`),
and an `f` line with a single index triple drives a whole load into it. -/
theorem exportFaceGroup_two_corner_precondition :
    (∀ (sh : Shape) (fg : List (List VertexIndex)) (tags : List Tag)
      (matId : Int) (nm : String) (tri : Bool),
      (∀ f ∈ fg, 2 ≤ f.length) →
      (exportFaceGroupToShape sh fg tags matId nm tri).isSome) ∧
    (∀ (sh : Shape) (tags : List Tag) (matId : Int) (nm : String) (tri : Bool)
      (vi : VertexIndex),
      exportFaceGroupToShape sh [[vi]] tags matId nm tri = none) ∧
    LoadObj none true [] ["f 5"] = none := by
  refine ⟨?_, ?_, by decide⟩
  · intro sh fg tags matId nm tri h
    unfold exportFaceGroupToShape
    by_cases hfg : fg = []
    · rw [if_pos hfg]; rfl
    · rw [if_neg hfg]
      obtain ⟨m2, hm2⟩ := Option.isSome_iff_exists.mp
        (exportLoop_isSome tri matId fg sh.mesh h)
      simp [hm2]
  · intro sh tags matId nm tri vi
    cases tri <;> simp [exportFaceGroupToShape, exportLoop, exportFace]

/-- Witness for C10: a two-corner and a three-corner face flush successfully;
the one-corner face group and the `f 5` load fail. -/
theorem exportFaceGroup_two_corner_precondition_witness :
    (exportFaceGroupToShape emptyShape
      [[⟨0, -1, -1⟩, ⟨1, -1, -1⟩], [⟨0, -1, -1⟩, ⟨1, -1, -1⟩, ⟨2, -1, -1⟩]]
      [] (-1) "" true).isSome ∧
    exportFaceGroupToShape emptyShape [[⟨4, -1, -1⟩]] [] (-1) "" true = none := by
  constructor
  · exact exportFaceGroup_two_corner_precondition.1 emptyShape
      [[⟨0, -1, -1⟩, ⟨1, -1, -1⟩], [⟨0, -1, -1⟩, ⟨1, -1, -1⟩, ⟨2, -1, -1⟩]]
      [] (-1) "" true (by decide)
  · exact exportFaceGroup_two_corner_precondition.2.1 emptyShape [] (-1) "" true
      ⟨4, -1, -1⟩

/-- Witness for C9: the failure cases at concrete inputs 'x', "+/", "  abc de". -/
theorem tryParseDouble_edge_cases_witness :
    tryParseDouble ['x'] = none ∧
    tryParseDouble ['+', '/'] = none ∧
    (parseReal (String.toList "  abc de") 7).1 = 7 ∧
    (∃ pre, (String.toList "  abc de").dropWhile IS_SPACE =
      pre ++ (parseReal (String.toList "  abc de") 7).2 ∧
      (∀ c ∈ pre, isSepSTR c = false) ∧
      ((parseReal (String.toList "  abc de") 7).2 = [] ∨
        isSepSTR (peekc (parseReal (String.toList "  abc de") 7).2) = true)) := by
  refine ⟨?_, ?_, ?_, ?_⟩
  · exact tryParseDouble_edge_cases.2.1 'x' [] (by decide) (by decide)
  · exact tryParseDouble_edge_cases.2.2.1 '+' ['/'] (by decide) (by decide)
  · exact tryParseDouble_edge_cases.2.2.2.1 (String.toList "  abc de") 7 (by decide)
  · exact tryParseDouble_edge_cases.2.2.2.2 (String.toList "  abc de") 7

/-- C6: the mtllib filename loop tries the resolution strategy on each
filename in order and stops at the first success (filenames after it are
never consulted); when every attempt fails without touching the material
state, the materials list and name table are unchanged and the error string
accumulates every failure's non-empty error text; and a stream whose mtllib
argument resolves to no openable file still loads to completion, returns
true, leaves the materials list unchanged, and carries a non-empty warning
ending in the failed-to-load notice. -/
theorem mtllib_resolution_strategy :
    (∀ (r : MatReader) (fs1 : List String) (s : String) (fs2 : List String)
      (mats : List Material) (mp : List (String × Int)) (err : String),
      (∀ fn ∈ fs1, ∀ m q, (r fn m q).1 = false) →
      (∀ m q, (r s m q).1 = true) →
      mtllibTryAll r (fs1 ++ s :: fs2) mats mp err =
        mtllibTryAll r (fs1 ++ [s]) mats mp err) ∧
    (∀ (r : MatReader) (fs : List String) (mats : List Material)
      (mp : List (String × Int)) (err : String),
      (∀ fn m q, (r fn m q).1 = false ∧ (r fn m q).2.1 = m ∧
        (r fn m q).2.2.1 = q) →
      mtllibTryAll r fs mats mp err =
        (false, mats, mp, fs.foldl (fun e fn =>
          if (r fn mats mp).2.2.2 = "" then e else e ++ (r fn mats mp).2.2.2)
          err)) ∧
    (LoadObj (some failingFileReader) true []
        ["mtllib missing.mtl", "v 0 0 0"] =
      some { attrib := ⟨[0, 0, 0], [], []⟩, shapes := [], materials := [],
             err := "WARN: Material file [ missing.mtl ] not found.\n" ++
               "WARN: Failed to load material file(s). Use default material.\n",
             ret := true }) := by
  refine ⟨?_, ?_, by with_unfolding_all decide⟩
  · intro r fs1 s fs2 mats mp err h1 h2
    induction fs1 generalizing mats mp err with
    | nil =>
      simp only [List.nil_append, mtllibTryAll, h2 mats mp]
      simp
    | cons fn fs1 ih =>
      have hfn : (r fn mats mp).1 = false := h1 fn (by simp) mats mp
      simp only [List.cons_append, mtllibTryAll, hfn]
      simp only [Bool.false_eq_true, if_false]
      exact ih _ _ _ (fun g hg m q => h1 g (by simp [hg]) m q)
  · intro r fs mats mp err h
    induction fs generalizing err with
    | nil => rfl
    | cons fn fs ih =>
      obtain ⟨hok, hm, hq⟩ := h fn mats mp
      simp only [mtllibTryAll, hok, hm, hq, Bool.false_eq_true, if_false,
        List.foldl_cons]
      exact ih _

/-- Witness for C6: the loop ignores filenames after the first success, and
a two-filename all-fail run leaves the state unchanged and concatenates both
warnings. -/
theorem mtllib_resolution_strategy_witness :
    (mtllibTryAll failFirstReader ["fail.mtl", "ok.mtl", "never.mtl"] [] [] "" =
      mtllibTryAll failFirstReader ["fail.mtl", "ok.mtl"] [] [] "") ∧
    (mtllibTryAll failingFileReader ["a.mtl", "b.mtl"] [] [] "" =
      (false, [], [], "WARN: Material file [ a.mtl ] not found.\n" ++
        "WARN: Material file [ b.mtl ] not found.\n")) := by
  constructor
  · exact mtllib_resolution_strategy.1 failFirstReader ["fail.mtl"] "ok.mtl"
      ["never.mtl"] [] [] ""
      (by intro fn hfn m q; simp at hfn; subst hfn; rfl)
      (fun m q => rfl)
  · exact (mtllib_resolution_strategy.2.1 failingFileReader ["a.mtl", "b.mtl"]
      [] [] "" (fun fn m q => ⟨rfl, rfl, rfl⟩)).trans (by decide)

/-! ### C7: the d / Tr dissolve conflict -/

/-- C7: in any material record state, a `d` line always overwrites the
dissolve with its parsed value and warns exactly when a `Tr` was already
seen; a `Tr` line leaves the dissolve alone and warns when a `d` was already
seen, and otherwise commits 1 minus its parsed value without warning.
Consequently, with both `d 0.5` and `Tr 0.3` in one record, in either order,
the committed dissolve is 0.5 and the warning string is non-empty, while
with only one of the two directives no warning is produced (and `Tr 0.3`
alone commits 0.7). -/
theorem LoadMtl_d_Tr_conflict :
    (∀ (st : MtlState) (rest : List Char),
      mtlRest st ('d' :: ' ' :: rest) =
        { st with
          material := { st.material with
            dissolve := (parseReal (' ' :: rest)).1 }
          warn := if st.has_tr then st.warn ++ dTrWarnText st.material.name
            else st.warn
          has_d := true }) ∧
    (∀ (st : MtlState) (rest : List Char),
      mtlRest st ('T' :: 'r' :: ' ' :: rest) =
        (if st.has_d then
          { st with
            warn := st.warn ++ dTrWarnText st.material.name
            has_tr := true }
        else
          { st with
            material := { st.material with
              dissolve := 1 - (parseReal (' ' :: rest)).1 }
            has_tr := true })) ∧
    ((LoadMtl ["newmtl m", "d 0.5", "Tr 0.3"] [] []).2.1.map Material.dissolve
        = [1/2] ∧
      (LoadMtl ["newmtl m", "d 0.5", "Tr 0.3"] [] []).2.2 ≠ "") ∧
    ((LoadMtl ["newmtl m", "Tr 0.3", "d 0.5"] [] []).2.1.map Material.dissolve
        = [1/2] ∧
      (LoadMtl ["newmtl m", "Tr 0.3", "d 0.5"] [] []).2.2 ≠ "") ∧
    ((LoadMtl ["newmtl m", "d 0.5"] [] []).2.1.map Material.dissolve = [1/2] ∧
      (LoadMtl ["newmtl m", "d 0.5"] [] []).2.2 = "") ∧
    ((LoadMtl ["newmtl m", "Tr 0.3"] [] []).2.1.map Material.dissolve = [7/10] ∧
      (LoadMtl ["newmtl m", "Tr 0.3"] [] []).2.2 = "") := by
  refine ⟨?_, ?_, by with_unfolding_all decide⟩
  · intro st rest
    have hred : mtlRest st ('d' :: ' ' :: rest) =
        (let st1 : MtlState :=
          { st with material := { st.material with
              dissolve := (parseReal (' ' :: rest)).1 } }
         let st2 := if st.has_tr then
             { st1 with warn := st1.warn ++ dTrWarnText st.material.name }
           else st1
         { st2 with has_d := true }) := rfl
    rw [hred]
    by_cases h : st.has_tr <;> simp [h]
  · intro st rest
    rfl

/-! ### C8: the unconditional final commit of LoadMtl -/

theorem mtlRest_materials (st : MtlState) (tok : List Char) :
    (mtlRest st tok).materials = st.materials ∧
      (mtlRest st tok).material_map = st.material_map := by
  unfold mtlRest
  dsimp only
  by_cases h1 : (charAt tok 0 = 'K' && charAt tok 1 = 'a' && IS_SPACE (charAt tok 2)) = true
  · rw [if_pos h1]
    exact ⟨rfl, rfl⟩
  rw [if_neg h1]
  by_cases h2 : (charAt tok 0 = 'K' && charAt tok 1 = 'd' && IS_SPACE (charAt tok 2)) = true
  · rw [if_pos h2]
    exact ⟨rfl, rfl⟩
  rw [if_neg h2]
  by_cases h3 : (charAt tok 0 = 'K' && charAt tok 1 = 's' && IS_SPACE (charAt tok 2)) = true
  · rw [if_pos h3]
    exact ⟨rfl, rfl⟩
  rw [if_neg h3]
  by_cases h4 : ((charAt tok 0 = 'K' && charAt tok 1 = 't' && IS_SPACE (charAt tok 2)) || (charAt tok 0 = 'T' && charAt tok 1 = 'f' && IS_SPACE (charAt tok 2))) = true
  · rw [if_pos h4]
    exact ⟨rfl, rfl⟩
  rw [if_neg h4]
  by_cases h5 : (charAt tok 0 = 'N' && charAt tok 1 = 'i' && IS_SPACE (charAt tok 2)) = true
  · rw [if_pos h5]
    exact ⟨rfl, rfl⟩
  rw [if_neg h5]
  by_cases h6 : (charAt tok 0 = 'K' && charAt tok 1 = 'e' && IS_SPACE (charAt tok 2)) = true
  · rw [if_pos h6]
    exact ⟨rfl, rfl⟩
  rw [if_neg h6]
  by_cases h7 : (charAt tok 0 = 'N' && charAt tok 1 = 's' && IS_SPACE (charAt tok 2)) = true
  · rw [if_pos h7]
    exact ⟨rfl, rfl⟩
  rw [if_neg h7]
  by_cases h8 : (strncmpEq tok "illum" && IS_SPACE (charAt tok 5)) = true
  · rw [if_pos h8]
    exact ⟨rfl, rfl⟩
  rw [if_neg h8]
  by_cases h9 : (charAt tok 0 = 'd' && IS_SPACE (charAt tok 1)) = true
  · rw [if_pos h9]
    split <;> exact ⟨rfl, rfl⟩
  rw [if_neg h9]
  by_cases h10 : (charAt tok 0 = 'T' && charAt tok 1 = 'r' && IS_SPACE (charAt tok 2)) = true
  · rw [if_pos h10]
    split <;> exact ⟨rfl, rfl⟩
  rw [if_neg h10]
  by_cases h11 : (charAt tok 0 = 'P' && charAt tok 1 = 'r' && IS_SPACE (charAt tok 2)) = true
  · rw [if_pos h11]
    exact ⟨rfl, rfl⟩
  rw [if_neg h11]
  by_cases h12 : (charAt tok 0 = 'P' && charAt tok 1 = 'm' && IS_SPACE (charAt tok 2)) = true
  · rw [if_pos h12]
    exact ⟨rfl, rfl⟩
  rw [if_neg h12]
  by_cases h13 : (charAt tok 0 = 'P' && charAt tok 1 = 's' && IS_SPACE (charAt tok 2)) = true
  · rw [if_pos h13]
    exact ⟨rfl, rfl⟩
  rw [if_neg h13]
  by_cases h14 : (charAt tok 0 = 'P' && charAt tok 1 = 'c' && IS_SPACE (charAt tok 2)) = true
  · rw [if_pos h14]
    exact ⟨rfl, rfl⟩
  rw [if_neg h14]
  by_cases h15 : (strncmpEq tok "Pcr" && IS_SPACE (charAt tok 3)) = true
  · rw [if_pos h15]
    exact ⟨rfl, rfl⟩
  rw [if_neg h15]
  by_cases h16 : (strncmpEq tok "aniso" && IS_SPACE (charAt tok 5)) = true
  · rw [if_pos h16]
    exact ⟨rfl, rfl⟩
  rw [if_neg h16]
  by_cases h17 : (strncmpEq tok "anisor" && IS_SPACE (charAt tok 6)) = true
  · rw [if_pos h17]
    exact ⟨rfl, rfl⟩
  rw [if_neg h17]
  by_cases h18 : (strncmpEq tok "map_Ka" && IS_SPACE (charAt tok 6)) = true
  · rw [if_pos h18]
    exact ⟨rfl, rfl⟩
  rw [if_neg h18]
  by_cases h19 : (strncmpEq tok "map_Kd" && IS_SPACE (charAt tok 6)) = true
  · rw [if_pos h19]
    exact ⟨rfl, rfl⟩
  rw [if_neg h19]
  by_cases h20 : (strncmpEq tok "map_Ks" && IS_SPACE (charAt tok 6)) = true
  · rw [if_pos h20]
    exact ⟨rfl, rfl⟩
  rw [if_neg h20]
  by_cases h21 : (strncmpEq tok "map_Ns" && IS_SPACE (charAt tok 6)) = true
  · rw [if_pos h21]
    exact ⟨rfl, rfl⟩
  rw [if_neg h21]
  by_cases h22 : (strncmpEq tok "map_bump" && IS_SPACE (charAt tok 8)) = true
  · rw [if_pos h22]
    exact ⟨rfl, rfl⟩
  rw [if_neg h22]
  by_cases h23 : (strncmpEq tok "bump" && IS_SPACE (charAt tok 4)) = true
  · rw [if_pos h23]
    exact ⟨rfl, rfl⟩
  rw [if_neg h23]
  by_cases h24 : (strncmpEq tok "map_d" && IS_SPACE (charAt tok 5)) = true
  · rw [if_pos h24]
    exact ⟨rfl, rfl⟩
  rw [if_neg h24]
  by_cases h25 : (strncmpEq tok "disp" && IS_SPACE (charAt tok 4)) = true
  · rw [if_pos h25]
    exact ⟨rfl, rfl⟩
  rw [if_neg h25]
  by_cases h26 : (strncmpEq tok "refl" && IS_SPACE (charAt tok 4)) = true
  · rw [if_pos h26]
    exact ⟨rfl, rfl⟩
  rw [if_neg h26]
  by_cases h27 : (strncmpEq tok "map_Pr" && IS_SPACE (charAt tok 6)) = true
  · rw [if_pos h27]
    exact ⟨rfl, rfl⟩
  rw [if_neg h27]
  by_cases h28 : (strncmpEq tok "map_Pm" && IS_SPACE (charAt tok 6)) = true
  · rw [if_pos h28]
    exact ⟨rfl, rfl⟩
  rw [if_neg h28]
  by_cases h29 : (strncmpEq tok "map_Ps" && IS_SPACE (charAt tok 6)) = true
  · rw [if_pos h29]
    exact ⟨rfl, rfl⟩
  rw [if_neg h29]
  by_cases h30 : (strncmpEq tok "map_Ke" && IS_SPACE (charAt tok 6)) = true
  · rw [if_pos h30]
    exact ⟨rfl, rfl⟩
  rw [if_neg h30]
  by_cases h31 : (strncmpEq tok "norm" && IS_SPACE (charAt tok 4)) = true
  · rw [if_pos h31]
    exact ⟨rfl, rfl⟩
  rw [if_neg h31]
  repeat' split
  all_goals exact ⟨rfl, rfl⟩

theorem mtlStep_materials_mono (st : MtlState) (line : String) :
    st.materials.length ≤ (mtlStep st line).materials.length := by
  unfold mtlStep
  dsimp only
  repeat' split
  all_goals first
    | exact le_refl _
    | exact (congrArg List.length (mtlRest_materials st _).1).ge
    | (simp only [List.length_append, List.length_cons, List.length_nil]; omega)

theorem foldl_mtlStep_mono (lines : List String) :
    ∀ st : MtlState,
      st.materials.length ≤ (lines.foldl mtlStep st).materials.length := by
  induction lines with
  | nil => intro st; exact le_refl _
  | cons l ls ih =>
    intro st
    exact le_trans (mtlStep_materials_mono st l) (ih _)

theorem lookup_append_single (m : List (String × Int)) (k : String) (v : Int) :
    ((m ++ [(k, v)]).lookup k).isSome := by
  induction m with
  | nil => simp [List.lookup]
  | cons a rest ih =>
    by_cases hk : k == a.1
    · simp [List.lookup, hk]
    · simp only [List.cons_append, List.lookup, hk]
      exact ih

theorem mapInsert_lookup_isSome (m : List (String × Int)) (k : String) (v : Int) :
    ((mapInsert m k v).lookup k).isSome := by
  unfold mapInsert
  split
  · assumption
  · exact lookup_append_single m k v

/-- C8: LoadMtl commits the open record unconditionally at end of stream —
for every line list (including the empty one) the materials list grows by at
least one entry, the final record is the last element of the returned list,
and its (possibly empty) name is present in the returned name table. -/
theorem LoadMtl_commits_final_record (lines : List String)
    (mp : List (String × Int)) (ms : List Material) :
    ms.length + 1 ≤ (LoadMtl lines mp ms).2.1.length ∧
    ∃ last, (LoadMtl lines mp ms).2.1.getLast? = some last ∧
      (((LoadMtl lines mp ms).1).lookup last.name).isSome := by
  unfold LoadMtl
  dsimp only
  constructor
  · have hmono : ms.length ≤ (lines.foldl mtlStep
        ⟨InitMaterial, false, false, mp, ms, ""⟩).materials.length :=
      foldl_mtlStep_mono lines ⟨InitMaterial, false, false, mp, ms, ""⟩
    simp only [List.length_append, List.length_cons, List.length_nil]
    omega
  · refine ⟨(lines.foldl mtlStep ⟨InitMaterial, false, false, mp, ms, ""⟩).material,
      ?_, ?_⟩
    · exact List.getLast?_concat _
    · exact mapInsert_lookup_isSome _ _ _

end ObjLoader
